import Mathlib

/-!
# Verification of the insurance-claim adjudication core

Shallow embedding of the three pipeline stages of the insurance-llm system
(query parsing / hybrid retrieval ranking / rule-priority adjudication),
translated from `src/services/query_processor.py`,
`src/services/semantic_search.py` and `src/services/decision_engine.py`.

Modelling conventions:
* Python strings that are scanned character-wise are `List Char`
  (abbreviated `Str`); display-only strings are Lean `String`.
* Python floats are idealised as `ℚ` (the claims under study never depend
  on binary rounding of IEEE floats).
* Python dictionaries with a fixed key set become structures; a key that
  may be absent becomes an `Option` field.
* Python regular-expression use is embedded by a small backtracking
  matcher (`mrun`) over a regex AST (`RE`), with Python `re` semantics:
  leftmost search, greedy quantifiers, left-biased alternation. Each
  pattern string from the source is transliterated into an `RE` value.
* `async` functions have no internal suspension-visible state; they are
  embedded as pure functions. Exceptions are embedded with `Except`.
-/

/-! ## Basic text helpers -/

/-- Character strings scanned by the pipeline (Python `str`). -/
abbrev Str := List Char

/-- Coerce a Lean string literal to the character-list representation. -/
def str (s : String) : Str := s.data

/-- Python `str.lower()` (ASCII case folding suffices for this code base). -/
def lowerStr (s : Str) : Str := s.map Char.toLower

/-- Python's `\d` character class (the ASCII digits `[0-9]`, i.e. code
points 48–57). -/
def isDigitC (c : Char) : Bool := 48 ≤ c.toNat && c.toNat ≤ 57

/-- Python's `\s` character class. -/
def isSpaceC (c : Char) : Bool :=
  c == ' ' || c == '\t' || c == '\n' || c == '\x0d' || c == '\x0b' || c == '\x0c'

/-- Python's `\w` character class (ASCII letters, digits, underscore). -/
def isWordC (c : Char) : Bool := c.isAlphanum || c == '_'

/-- `pre` is a prefix of `s` (used to embed anchored matching). -/
def isPrefixL : Str → Str → Bool
  | [], _ => true
  | _ :: _, [] => false
  | a :: pre, b :: s => a == b && isPrefixL pre s

/-- Python's substring test `pat in s`. -/
def isSubstr (pat : Str) : Str → Bool
  | [] => isPrefixL pat []
  | s@(_ :: t) => isPrefixL pat s || isSubstr pat t

/-- Python `str.split()`: split on runs of whitespace, no empty words. -/
def splitWs (s : Str) : List Str :=
  go s []
where
  /-- Accumulate the current word (reversed); emit on whitespace/end. -/
  go : Str → Str → List Str
  | [], acc => if acc == [] then [] else [acc.reverse]
  | c :: rest, acc =>
      if isSpaceC c then
        if acc == [] then go rest [] else acc.reverse :: go rest []
      else go rest (c :: acc)

/-- Value of a digit character. -/
def digitVal (c : Char) : Nat := c.toNat - '0'.toNat

/-- Python `int` applied to a captured digit string. -/
def digitsToNat (s : Str) : Nat := s.foldl (fun a c => a * 10 + digitVal c) 0

/-- Python `float` applied to a captured numeric string of shape
`\d+(\.\d+)?` (after removing `,` separators); exact as a rational. -/
def decimalToRat (s : Str) : ℚ :=
  let intPart := s.takeWhile (fun c => c != '.')
  let rest := s.dropWhile (fun c => c != '.')
  let frac := rest.drop 1
  (digitsToNat intPart : ℚ) + (digitsToNat frac : ℚ) / (10 : ℚ) ^ frac.length

/-- Python `s.replace(',', '')`. -/
def removeCommas (s : Str) : Str := s.filter (fun c => c != ',')

/-! ## Regex engine

A tiny backtracking matcher sufficient for the patterns appearing in the
source. `mrun fuel re s cap k` attempts to match `re` at the head of `s`
with current group-1 capture `cap`, calling the success continuation `k`
on the rest of the input and the updated capture; alternatives are tried
in Python `re` order (left-biased alternation, greedy quantifiers with
backtracking). The `fuel` argument only forces structural termination;
every concrete run below is supplied ample fuel. -/

/-- Regex AST: the fragment used by the source's patterns. -/
inductive RE where
  /-- empty pattern -/
  | eps
  /-- single character class (also used for case-insensitive literals) -/
  | cls (p : Char → Bool)
  /-- concatenation -/
  | seq (a b : RE)
  /-- alternation `a|b` (left-biased) -/
  | alt (a b : RE)
  /-- `a?` (greedy) -/
  | opt (a : RE)
  /-- `a*` (greedy); all starred bodies in the source consume ≥ 1 char -/
  | star (a : RE)
  /-- capture group 1 `( … )` -/
  | group (a : RE)
deriving Inhabited

/-- Backtracking matcher (see module comment). -/
def mrun {α : Type} : Nat → RE → Str → Option Str →
    (Str → Option Str → Option α) → Option α
  | 0, _, _, _, _ => none
  | _ + 1, .eps, s, cap, k => k s cap
  | _ + 1, .cls p, s, cap, k =>
      match s with
      | [] => none
      | c :: rest => if p c then k rest cap else none
  | f + 1, .seq a b, s, cap, k =>
      mrun f a s cap (fun s' cap' => mrun f b s' cap' k)
  | f + 1, .alt a b, s, cap, k =>
      mrun f a s cap k <|> mrun f b s cap k
  | f + 1, .opt a, s, cap, k =>
      mrun f a s cap k <|> k s cap
  | f + 1, .star a, s, cap, k =>
      (mrun f a s cap (fun s' cap' =>
        if s'.length < s.length then mrun f (.star a) s' cap' k else none))
        <|> k s cap
  | f + 1, .group a, s, cap, k =>
      mrun f a s cap (fun s' _ => k s' (some (s.take (s.length - s'.length))))

/-- Number of AST nodes, used to budget matcher fuel. -/
def reSize : RE → Nat
  | .eps => 1
  | .cls _ => 1
  | .seq a b => reSize a + reSize b + 1
  | .alt a b => reSize a + reSize b + 1
  | .opt a => reSize a + 1
  | .star a => reSize a + 1
  | .group a => reSize a + 1

/-- Ample fuel for matching `r` against (a suffix of) `s`. -/
def matchFuel (r : RE) (s : Str) : Nat := (reSize r + 2) * (s.length + 2)

/-- One anchored match attempt at the head of `s`; on success returns the
group-1 capture (if the group participated) and the remaining input. -/
def manchored (r : RE) (s : Str) : Option (Option Str × Str) :=
  mrun (matchFuel r s) r s none (fun rest cap => some (cap, rest))

/-- Python `re.search(r, s)` restricted to the group-1 capture
(`match.group(1)`): scan match start positions from the left. -/
def research (r : RE) : Str → Option (Option Str)
  | [] => (manchored r []).map (·.1)
  | s@(_ :: t) => ((manchored r s).map (·.1)) <|> research r t

/-- Python `re.search(r, s)` returning both the group-1 capture and the
whole matched text (`match.group(0)`). -/
def researchFull (r : RE) : Str → Option (Option Str × Str)
  | [] => (manchored r []).map (fun pr => (pr.1, []))
  | s@(_ :: t) =>
      ((manchored r s).map (fun pr => (pr.1, s.take (s.length - pr.2.length))))
        <|> researchFull r t

/-- Python `re.findall(r, s)` for a pattern with one group: the list of
group-1 captures of the non-overlapping matches, scanned left to right,
resuming after each match end. -/
def refindall (r : RE) (s : Str) : List Str :=
  go (s.length + 1) s
where
  /-- Fuel-driven scan; fuel `s.length + 1` always suffices because the
  scan position advances by at least one character per step. -/
  go : Nat → Str → List Str
  | 0, _ => []
  | f + 1, s =>
      match manchored r s with
      | some (cap, rest) =>
          cap.getD [] ::
            (if rest.length < s.length then go f rest
             else match s with | [] => [] | _ :: t => go f t)
      | none => match s with | [] => [] | _ :: t => go f t

/-- Case-insensitive literal character (the source compiles every pattern
with `re.IGNORECASE`). -/
def chari (c : Char) : RE := .cls (fun x => x.toLower == c.toLower)

/-- Case-insensitive literal word. -/
def litW (w : String) : RE := w.data.foldr (fun c r => .seq (chari c) r) .eps

/-- `p+` for a character class (greedy, with backtracking). -/
def plusC (p : Char → Bool) : RE := .seq (.cls p) (.star (.cls p))

/-- `p*` for a character class. -/
def starC (p : Char → Bool) : RE := .star (.cls p)

/-- `\s*` -/
def wsStar : RE := starC isSpaceC

/-! ## Query processor (`src/services/query_processor.py`)

The optional spaCy tagger is modelled as absent (the `self.nlp = None`
fallback path of the source); per the spec its absence must not change
any other extraction, and the auxiliary `dates` / `organizations` /
`money_mentions` entities simply stay unset. -/

/-- `\d{1,2}` (greedy: two digits preferred over one). -/
def digit12 : RE := .seq (.cls isDigitC) (.opt (.cls isDigitC))

/-- Age pattern 1: `(\d{1,2})\s*(?:year|yr|y\.o\.?|years?)\s*old`. -/
def agePat1 : RE :=
  .seq (.group digit12)
    (.seq wsStar
      (.seq (.alt (litW "year")
              (.alt (litW "yr")
                (.alt (.seq (chari 'y') (.seq (chari '.') (.seq (chari 'o') (.opt (chari '.')))))
                  (.seq (litW "year") (.opt (chari 's'))))))
        (.seq wsStar (litW "old"))))

/-- Age pattern 2: `age\s*(?:of\s*)?(\d{1,2})`. -/
def agePat2 : RE :=
  .seq (litW "age")
    (.seq wsStar (.seq (.opt (.seq (litW "of") wsStar)) (.group digit12)))

/-- Age pattern 3: `(\d{1,2})\s*(?:male|female|M|F)`. -/
def agePat3 : RE :=
  .seq (.group digit12)
    (.seq wsStar
      (.alt (litW "male") (.alt (litW "female") (.alt (chari 'M') (chari 'F')))))

/-- The ordered age pattern list `QueryProcessor.patterns['age']`. -/
def agePatterns : List RE := [agePat1, agePat2, agePat3]

/-- `\d+(?:,\d+)*`: digits with optional comma-separated groups. -/
def numGrouped : RE :=
  .seq (plusC isDigitC) (.star (.seq (chari ',') (plusC isDigitC)))

/-- `(?:old\s*)?policy` tail of the policy-duration patterns. -/
def oldPolicyTail : RE := .seq (.opt (.seq (litW "old") wsStar)) (litW "policy")

/-- Policy-duration pattern 1: `(\d+)\s*(?:month|mon|months?)\s*(?:old\s*)?policy`. -/
def durPat1 : RE :=
  .seq (.group (plusC isDigitC))
    (.seq wsStar
      (.seq (.alt (litW "month") (.alt (litW "mon") (.seq (litW "month") (.opt (chari 's')))))
        (.seq wsStar oldPolicyTail)))

/-- Policy-duration pattern 2: `(\d+)\s*(?:year|yr|years?)\s*(?:old\s*)?policy`. -/
def durPat2 : RE :=
  .seq (.group (plusC isDigitC))
    (.seq wsStar
      (.seq (.alt (litW "year") (.alt (litW "yr") (.seq (litW "year") (.opt (chari 's')))))
        (.seq wsStar oldPolicyTail)))

/-- Policy-duration pattern 3: `policy\s*(?:of\s*)?(\d+)\s*(?:month|year)`. -/
def durPat3 : RE :=
  .seq (litW "policy")
    (.seq wsStar
      (.seq (.opt (.seq (litW "of") wsStar))
        (.seq (.group (plusC isDigitC))
          (.seq wsStar (.alt (litW "month") (litW "year"))))))

/-- The ordered pattern list `QueryProcessor.patterns['policy_duration']`. -/
def durPatterns : List RE := [durPat1, durPat2, durPat3]

/-- Query amount pattern 1: `₹\s*(\d+(?:,\d+)*)`. -/
def qAmtPat1 : RE := .seq (chari '₹') (.seq wsStar (.group numGrouped))

/-- Query amount pattern 2: `rs\.?\s*(\d+(?:,\d+)*)`. -/
def qAmtPat2 : RE :=
  .seq (litW "rs") (.seq (.opt (chari '.')) (.seq wsStar (.group numGrouped)))

/-- Query amount pattern 3: `rupees?\s*(\d+(?:,\d+)*)`. -/
def qAmtPat3 : RE :=
  .seq (litW "rupee") (.seq (.opt (chari 's')) (.seq wsStar (.group numGrouped)))

/-- The ordered pattern list `QueryProcessor.patterns['amount']`. -/
def qAmtPatterns : List RE := [qAmtPat1, qAmtPat2, qAmtPat3]

/-- Whole-word search embedding `\b(?:w₁|…|wₙ)\b` with `re.IGNORECASE`:
scan positions left to right; at a position whose predecessor is not a
word character, try the alternatives in order, requiring the following
character (if any) to be a non-word character; return the matched text
(`match.group(0)`). Used for the gender patterns. -/
def findWordOf (alts : List Str) (s : Str) : Option Str :=
  go (s.length + 1) false s
where
  /-- Try every alternative at the current position (boundary before ok). -/
  tryAlts : List Str → Str → Option Str
  | [], _ => none
  | a :: rest, t =>
      if isPrefixL (lowerStr a) (lowerStr (t.take a.length)) &&
          a.length ≤ t.length &&
          (match t.drop a.length with | [] => true | d :: _ => !isWordC d) then
        some (t.take a.length)
      else tryAlts rest t
  /-- Scan positions; `prevW` records whether the previous char is a word
  character (no `\b` boundary holds there). -/
  go : Nat → Bool → Str → Option Str
  | 0, _, _ => none
  | _ + 1, _, [] => none
  | f + 1, prevW, t@(c :: rest) =>
      (if prevW then none else tryAlts alts t) <|> go f (isWordC c) rest

/-- Python `str.replace(old, new)` (all occurrences, left to right). -/
def replaceAll (old new : Str) (s : Str) : Str :=
  if old == [] then s else go (s.length + 1) s
where
  /-- Fuel-driven scan, fuel `s.length + 1` suffices (`old ≠ []`). -/
  go : Nat → Str → Str
  | 0, _ => []
  | _ + 1, [] => []
  | f + 1, t@(c :: rest) =>
      if isPrefixL old t then new ++ go f (t.drop old.length)
      else c :: go f rest

/-- One pass of `re.sub(r'\b' + abbr + r'\b', full, s)`: replace every
whole-word occurrence of `abbr` (all abbreviations consist of word
characters, so `\b` holds exactly when the neighbouring character is not
a word character or the string ends). -/
def replaceWord (abbr full : Str) (s : Str) : Str :=
  go (s.length + 1) false s
where
  /-- `prevW`: previous character (in the original string) is a word char. -/
  go : Nat → Bool → Str → Str
  | 0, _, _ => []
  | _ + 1, _, [] => []
  | f + 1, prevW, t@(c :: rest) =>
      if !prevW && abbr != [] && isPrefixL abbr t &&
          (match t.drop abbr.length with | [] => true | d :: _ => !isWordC d) then
        full ++ go f true (t.drop abbr.length)
      else c :: go f (isWordC c) rest

/-- `re.sub(r'\s+', ' ', s)`: collapse each whitespace run to one space. -/
def collapseWs (s : Str) : Str :=
  go (s.length + 1) s
where
  /-- Fuel-driven (the `dropWhile` step is not structural). -/
  go : Nat → Str → Str
  | 0, _ => []
  | _ + 1, [] => []
  | f + 1, c :: rest =>
      if isSpaceC c then ' ' :: go f (rest.dropWhile isSpaceC)
      else c :: go f rest

/-- Python `str.strip()`. -/
def stripWs (s : Str) : Str :=
  ((s.dropWhile isSpaceC).reverse.dropWhile isSpaceC).reverse

/-- The fixed abbreviation table of `_normalize_query`, in insertion
(= application) order. -/
def abbreviations : List (Str × Str) :=
  [(str "yrs", str "years"), (str "yr", str "year"),
   (str "mos", str "months"), (str "mo", str "month"),
   (str "hrs", str "hours"), (str "hr", str "hour"),
   (str "mins", str "minutes"), (str "min", str "minute")]

/-- `QueryProcessor._normalize_query`: lowercase, collapse whitespace,
strip, then expand each abbreviation by whole-word replacement. -/
def normalize_query (query : Str) : Str :=
  let q := lowerStr query
  let q := stripWs (collapseWs q)
  abbreviations.foldl (fun q ab => replaceWord ab.1 ab.2 q) q

/-- `QueryProcessor._extract_age`: try the age patterns in order; on a
structural match parse the capture (`int` never fails on `\d{1,2}`) and
return it if it lies in the accepted range `0 ≤ age ≤ 120`; otherwise
fall through to the next pattern. -/
def extract_age (query : Str) : Option Nat :=
  go agePatterns
where
  /-- The pattern loop of the source. -/
  go : List RE → Option Nat
  | [] => none
  | p :: rest =>
      match research p query with
      | some cap =>
          let age := digitsToNat (cap.getD [])
          if age ≤ 120 then some age else go rest
      | none => go rest

/-- `QueryProcessor._extract_gender`: first whole-word match of
`male|man|M`, then of `female|woman|F`; normalize to `male` / `female`. -/
def extract_gender (query : Str) : Option Str :=
  match findWordOf [str "male", str "man", str "M"] query with
  | some w =>
      let g := lowerStr w
      if g ∈ [str "male", str "man", str "m"] then some (str "male")
      else if g ∈ [str "female", str "woman", str "f"] then some (str "female")
      else second
  | none => second
where
  /-- The second gender pattern `\b(?:female|woman|F)\b`. -/
  second : Option Str :=
    match findWordOf [str "female", str "woman", str "F"] query with
    | some w =>
        let g := lowerStr w
        if g ∈ [str "male", str "man", str "m"] then some (str "male")
        else if g ∈ [str "female", str "woman", str "f"] then some (str "female")
        else none
    | none => none

/-- The fixed medical vocabulary of `_extract_procedure`. -/
def medicalTermsVocab : List Str :=
  [str "knee surgery", str "heart surgery", str "brain surgery", str "eye surgery",
   str "cancer", str "diabetes", str "hypertension", str "surgery", str "operation",
   str "procedure", str "treatment", str "transplant", str "dialysis", str "chemotherapy",
   str "radiotherapy", str "hospitalization", str "admission"]

/-- `QueryProcessor._extract_procedure`: collect every vocabulary term
occurring in the query and keep the longest (ties: the earliest found,
as Python `max(…, key=len)` keeps the first maximal element). -/
def extract_procedure (query : Str) : Option Str :=
  let found := medicalTermsVocab.filter (fun t => isSubstr (lowerStr t) (lowerStr query))
  match found with
  | [] => none
  | t :: rest => some (rest.foldl (fun best x => if x.length > best.length then x else best) t)

/-- The fixed city list of `_extract_location`. -/
def citiesList : List Str :=
  [str "mumbai", str "delhi", str "bangalore", str "chennai", str "kolkata",
   str "hyderabad", str "pune", str "ahmedabad", str "surat", str "jaipur",
   str "lucknow", str "kanpur", str "nagpur", str "indore", str "thane",
   str "bhopal", str "visakhapatnam", str "pimpri", str "patna", str "vadodara",
   str "ghaziabad", str "ludhiana", str "coimbatore"]

/-- Python `str.title()` for the single-word city names of the list. -/
def titleStr : Str → Str
  | [] => []
  | c :: t => c.toUpper :: t

/-- `QueryProcessor._extract_location` (spaCy fallback absent): first
city of the fixed list occurring in the lowercased query. -/
def extract_location (query : Str) : Option Str :=
  go citiesList
where
  /-- The city loop of the source. -/
  go : List Str → Option Str
  | [] => none
  | c :: rest => if isSubstr c (lowerStr query) then some (titleStr c) else go rest

/-- The `policy_duration` entity value. -/
structure PolicyDuration where
  /-- captured integer -/
  duration : Nat
  /-- `"months"` or `"years"`, inferred from the matched substring -/
  unit : String
  /-- normalized months: `duration*12` for years, else `duration` -/
  months : ℚ
deriving DecidableEq, Repr

/-- `QueryProcessor._extract_policy_duration`: first pattern with a
match wins; the unit is read off the whole matched text. -/
def extract_policy_duration (query : Str) : Option PolicyDuration :=
  go durPatterns
where
  /-- The pattern loop of the source. -/
  go : List RE → Option PolicyDuration
  | [] => none
  | p :: rest =>
      match researchFull p query with
      | some (cap, whole) =>
          let duration := digitsToNat (cap.getD [])
          let matchText := lowerStr whole
          if isSubstr (str "year") matchText || isSubstr (str "yr") matchText then
            some { duration := duration, unit := "years", months := (duration * 12 : ℕ) }
          else
            some { duration := duration, unit := "months", months := (duration : ℕ) }
      | none => go rest

/-- The `amount` entity value (the display-only `formatted` rendering of
the source is not modelled). -/
structure AmountEntity where
  /-- parsed amount -/
  amount : ℚ
  /-- always `"INR"` -/
  currency : String
deriving DecidableEq, Repr

/-- `QueryProcessor._extract_amount`: first pattern with a match wins;
the capture has shape `\d+(?:,\d+)*`, so `float` never fails. -/
def extract_amount (query : Str) : Option AmountEntity :=
  go qAmtPatterns
where
  /-- The pattern loop of the source. -/
  go : List RE → Option AmountEntity
  | [] => none
  | p :: rest =>
      match research p query with
      | some cap =>
          some { amount := decimalToRat (removeCommas (cap.getD [])), currency := "INR" }
      | none => go rest

/-- The extracted entity map: at most one value per kind; a missing key
of the Python dict is `none`. The auxiliary spaCy lists stay `none` in
the modelled (tagger-absent) configuration. -/
structure Entities where
  /-- `entities['age']` -/
  age : Option Nat := none
  /-- `entities['gender']` -/
  gender : Option Str := none
  /-- `entities['procedure']` -/
  procedure : Option Str := none
  /-- `entities['location']` -/
  location : Option Str := none
  /-- `entities['policy_duration']` -/
  policy_duration : Option PolicyDuration := none
  /-- `entities['amount']` -/
  amount : Option AmountEntity := none
  /-- `entities['dates']` (spaCy only) -/
  dates : Option (List Str) := none
  /-- `entities['organizations']` (spaCy only) -/
  organizations : Option (List Str) := none
  /-- `entities['money_mentions']` (spaCy only) -/
  money_mentions : Option (List Str) := none
deriving DecidableEq, Repr

/-- Python truthiness guard `if value:` used before each dict insert:
`0`, the empty string and `None` are falsy. -/
def truthyNat : Option Nat → Option Nat
  | some n => if n ≠ 0 then some n else none
  | none => none

/-- Truthiness guard for string-valued extractions. -/
def truthyStr : Option Str → Option Str
  | some s => if s ≠ [] then some s else none
  | none => none

/-- `QueryProcessor._extract_entities` (tagger-absent configuration):
each extractor's result is inserted under its key only if truthy; the
returned `policy_duration` / `amount` dicts are always non-empty, hence
always truthy. -/
def extract_entities (query : Str) : Entities where
  age := truthyNat (extract_age query)
  gender := truthyStr (extract_gender query)
  procedure := truthyStr (extract_procedure query)
  location := truthyStr (extract_location query)
  policy_duration := extract_policy_duration query
  amount := extract_amount query

/-- Number of keys of the entities dict (`len(entities)`). -/
def numEntities (e : Entities) : Nat :=
  (if e.age.isSome then 1 else 0) + (if e.gender.isSome then 1 else 0) +
  (if e.procedure.isSome then 1 else 0) + (if e.location.isSome then 1 else 0) +
  (if e.policy_duration.isSome then 1 else 0) + (if e.amount.isSome then 1 else 0) +
  (if e.dates.isSome then 1 else 0) + (if e.organizations.isSome then 1 else 0) +
  (if e.money_mentions.isSome then 1 else 0)

/-- The fixed intent keyword table of `_classify_intent`, in declaration
(= dict insertion) order. -/
def intentKeywords : List (String × List Str) :=
  [("coverage_verification", [str "cover", str "coverage", str "eligible", str "include", str "apply"]),
   ("claim_processing", [str "claim", str "benefit", str "payout", str "reimburse", str "amount"]),
   ("exclusion_check", [str "exclusion", str "exclude", str "not covered", str "exception"]),
   ("waiting_period_check", [str "waiting period", str "wait", str "when", str "delay"]),
   ("premium_inquiry", [str "premium", str "cost", str "price", str "fee", str "charge"]),
   ("policy_details", [str "policy", str "terms", str "condition", str "detail"]),
   ("general_inquiry", [str "what", str "how", str "when", str "where", str "why"])]

/-- `QueryProcessor._classify_intent`: count keyword hits per intent,
keep intents with positive score, return the first intent attaining the
maximal score (Python `max` keeps the first maximal key in insertion
order); default `general_inquiry`. -/
def classify_intent (query : Str) : String :=
  let ql := lowerStr query
  let scores := intentKeywords.map (fun it =>
    (it.1, (it.2.filter (fun kw => isSubstr kw ql)).length))
  let positive := scores.filter (fun sc => sc.2 > 0)
  match positive with
  | [] => "general_inquiry"
  | sc :: rest => (rest.foldl (fun best x => if x.2 > best.2 then x else best) sc).1

/-- `round(x, 2)`; every value it is applied to in this development is
an exact multiple of `1/20`, so Python's banker's tie rule never fires. -/
def pyRound2 (x : ℚ) : ℚ := ((round (x * 100) : ℤ) : ℚ) / 100

/-- The medical term list of `_calculate_confidence`. -/
def confMedicalTerms : List Str :=
  [str "surgery", str "treatment", str "condition", str "procedure", str "hospital"]

/-- The insurance term list of `_calculate_confidence`. -/
def confInsuranceTerms : List Str :=
  [str "policy", str "claim", str "coverage", str "benefit", str "premium"]

/-- `QueryProcessor._calculate_confidence`: base `0.5`, `+0.1` per
entity, `+0.05` per medical / insurance term occurring in the lowercased
query, `+0.1` if the query contains a digit (`re.search(r'\d+', …)`),
`+0.1` if it contains a comma; capped at `1.0`, rounded to 2 decimals. -/
def calculate_confidence (query : Str) (entities : Entities) : ℚ :=
  let base_score : ℚ := 0.5
  let entity_bonus : ℚ := (numEntities entities : ℚ) * 0.1
  let medical_bonus : ℚ :=
    confMedicalTerms.foldl (fun b t => if isSubstr t (lowerStr query) then b + 0.05 else b) 0
  let insurance_bonus : ℚ :=
    confInsuranceTerms.foldl (fun b t => if isSubstr t (lowerStr query) then b + 0.05 else b) 0
  let structure_bonus : ℚ :=
    (if query.any isDigitC then (0.1 : ℚ) else 0) +
    (if query.contains ',' then (0.1 : ℚ) else 0)
  pyRound2 (min (base_score + entity_bonus + medical_bonus + insurance_bonus + structure_bonus) 1)

/-- The parsed query record returned by `QueryProcessor.parse_query`. -/
structure ParsedQuery where
  /-- the raw input text -/
  original_query : Str
  /-- the extracted entity map -/
  entities : Entities
  /-- the classified intent -/
  intent : String
  /-- the parser confidence -/
  confidence : ℚ
  /-- the normalized text -/
  normalized_query : Str
deriving DecidableEq, Repr

/-- `QueryProcessor.parse_query`. -/
def parse_query (query : Str) : ParsedQuery :=
  let normalized_query := normalize_query query
  let entities := extract_entities normalized_query
  { original_query := query
    entities := entities
    intent := classify_intent normalized_query
    confidence := calculate_confidence normalized_query entities
    normalized_query := normalized_query }

/-! ## Semantic search (`src/services/semantic_search.py`)

Only the pure scoring/ranking core is embedded; the vector / database
retrieval paths are external collaborators (out of the spec's scope) and
enter the model as the input passage list. -/

/-- The `boost_factors` record attached by `_enhance_with_keyword_search`. -/
structure BoostFactors where
  /-- keyword boost component -/
  keyword_boost : ℚ
  /-- section-type boost component -/
  section_boost : ℚ
  /-- entity-match boost component -/
  entity_boost : ℚ
deriving DecidableEq, Repr

/-- A retrieved passage record (the dict rows produced by the retrieval
paths). Fields only carried through unchanged by the embedded functions
(`chunk_id`, `metadata`, `page_number`, `confidence_score`,
`document_type`) are not modelled. -/
structure Passage where
  /-- `text` -/
  text : Str
  /-- `section_type` -/
  section_type : String
  /-- `filename` -/
  filename : String
  /-- `similarity_score` (base score from retrieval; overwritten with the
  boosted score by `_enhance_with_keyword_search`) -/
  similarity_score : ℚ
  /-- `boost_factors` (absent until enhancement) -/
  boost_factors : Option BoostFactors := none
  /-- `relevance_factors` (absent until ranking) -/
  relevance_factors : List String := []
deriving DecidableEq, Repr

/-- `SemanticSearchService._calculate_keyword_boost`: `+0.02` per query
word occurring in the passage text, `+0.05` per adjacent bigram, capped
at `0.2`. -/
def calculate_keyword_boost (query : Str) (entities : Entities) (text : Str) : ℚ :=
  let _ := entities
  let query_words := splitWs (lowerStr query)
  let text_lower := lowerStr text
  let boost : ℚ :=
    query_words.foldl (fun b word => if isSubstr word text_lower then b + 0.02 else b) 0
  let boost : ℚ :=
    if query_words.length > 1 then
      (List.zipWith (fun a b => a ++ [' '] ++ b) query_words query_words.tail).foldl
        (fun b bigram => if isSubstr bigram text_lower then b + 0.05 else b) boost
    else boost
  min boost 0.2

/-- `SemanticSearchService._calculate_section_boost`: `+0.1` per present
entity kind whose relevance set (from the fixed `entity_section_mapping`)
contains the passage's section type; flat `+0.05` for `exclusion`,
`+0.1` for `benefit`; capped at `0.3`. -/
def calculate_section_boost (entities : Entities) (section_type : String) : ℚ :=
  let boost : ℚ :=
    (if entities.procedure.isSome ∧ section_type ∈ ["benefit", "coverage", "condition"] then 0.1 else 0) +
    (if entities.amount.isSome ∧ section_type ∈ ["benefit", "financial", "limitation"] then 0.1 else 0) +
    (if entities.policy_duration.isSome ∧ section_type ∈ ["limitation", "condition"] then 0.1 else 0)
  let boost : ℚ :=
    if section_type == "exclusion" then boost + 0.05
    else if section_type == "benefit" then boost + 0.1
    else boost
  min boost 0.3

/-- `SemanticSearchService._calculate_entity_boost`: `+0.15` if the
(truthy) `procedure` value occurs in the text, `+0.05` for `location`,
`+0.1` if the decimal rendering of `age` occurs; capped at `0.25`. -/
def calculate_entity_boost (entities : Entities) (text : Str) : ℚ :=
  let text_lower := lowerStr text
  let boost : ℚ :=
    (match entities.procedure with
     | some p => if p ≠ [] ∧ isSubstr (lowerStr p) text_lower then 0.15 else 0
     | none => 0) +
    (match entities.location with
     | some l => if l ≠ [] ∧ isSubstr (lowerStr l) text_lower then 0.05 else 0
     | none => 0) +
    (match entities.age with
     | some a => if a ≠ 0 ∧ isSubstr (str (toString a)) text_lower then 0.1 else 0
     | none => 0)
  min boost 0.25

/-- `SemanticSearchService._enhance_with_keyword_search`: per passage,
compute the three boosts, fuse
`boosted = min(base + keyword + section + entity, 1.0)`, store it back
into `similarity_score` and record the boost breakdown. -/
def enhance_with_keyword_search (query : Str) (entities : Entities)
    (vector_results : List Passage) : List Passage :=
  vector_results.map (fun result =>
    let keyword_boost := calculate_keyword_boost query entities result.text
    let section_boost := calculate_section_boost entities result.section_type
    let entity_boost := calculate_entity_boost entities result.text
    let original_score := result.similarity_score
    let boosted_score := min (original_score + keyword_boost + section_boost + entity_boost) 1
    { result with
        similarity_score := boosted_score
        boost_factors := some ⟨keyword_boost, section_boost, entity_boost⟩ })

/-- Display rendering of an entity value used only inside the
human-readable relevance factors (Python `str(entity_value)`; the exact
punctuation of Python's dict rendering is not reproduced — these strings
are descriptive only and feed nothing). -/
def pyStrPolicyDuration (pd : PolicyDuration) : String :=
  "duration " ++ toString pd.duration ++ " unit " ++ pd.unit ++ " months " ++ toString pd.months

/-- Display rendering of the `amount` entity value (see
`pyStrPolicyDuration`). -/
def pyStrAmount (a : AmountEntity) : String :=
  "amount " ++ toString a.amount ++ " currency " ++ a.currency

/-- `SemanticSearchService._explain_relevance`: similarity tier, entity
matches, section-type relevance and strong-keyword flag, in source
order. Descriptive only. -/
def explain_relevance (result : Passage) (entities : Entities) : List String :=
  let score := result.similarity_score
  let factors : List String :=
    if score > 0.8 then ["High semantic similarity"]
    else if score > 0.6 then ["Good semantic similarity"]
    else []
  let text_lower := lowerStr result.text
  let entityFactor := fun (name : String) (rendered : String) (v : Str) =>
    if v ≠ [] ∧ isSubstr (lowerStr v) text_lower then
      ["Contains " ++ name ++ ": " ++ rendered] else []
  let factors := factors ++
    (match entities.age with
     | some a => if a ≠ 0 ∧ isSubstr (lowerStr (str (toString a))) text_lower then
         ["Contains age: " ++ toString a] else []
     | none => []) ++
    (match entities.gender with
     | some g => entityFactor "gender" (String.mk g) g | none => []) ++
    (match entities.procedure with
     | some p => entityFactor "procedure" (String.mk p) p | none => []) ++
    (match entities.location with
     | some l => entityFactor "location" (String.mk l) l | none => []) ++
    (match entities.policy_duration with
     | some pd => entityFactor "policy_duration" (pyStrPolicyDuration pd) (str (pyStrPolicyDuration pd))
     | none => []) ++
    (match entities.amount with
     | some a => entityFactor "amount" (pyStrAmount a) (str (pyStrAmount a)) | none => [])
  let factors := factors ++
    (if result.section_type ∈ ["benefit", "coverage"] then ["Relevant policy section"]
     else if result.section_type == "exclusion" then ["Important exclusion clause"]
     else [])
  let factors := factors ++
    (match result.boost_factors with
     | some bf => if bf.keyword_boost > 0.05 then ["Strong keyword match"] else []
     | none => [])
  factors

/-- Stable insertion into a list sorted descending by `similarity_score`
(the inserted element goes before the first element whose score is not
greater than its own). -/
def insertDesc (x : Passage) : List Passage → List Passage
  | [] => [x]
  | y :: ys =>
      if x.similarity_score ≥ y.similarity_score then x :: y :: ys
      else y :: insertDesc x ys

/-- Python `sorted(…, key=…'similarity_score'…, reverse=True)`: a stable
descending sort by score (stable sorts are unique, so insertion sort
realises exactly the observable behaviour of Python's sort). -/
def pysortDesc : List Passage → List Passage
  | [] => []
  | x :: rest => insertDesc x (pysortDesc rest)

/-- `SemanticSearchService._rank_and_filter_results`: drop passages
below the similarity threshold, stable-sort descending by score, attach
relevance factors, truncate to `top_k`. -/
def rank_and_filter_results (results : List Passage) (entities : Entities)
    (similarity_threshold : ℚ) (top_k : Nat) : List Passage :=
  let filtered_results :=
    results.filter (fun result => decide (similarity_threshold ≤ result.similarity_score))
  let sorted_results := pysortDesc filtered_results
  let sorted_results := sorted_results.map (fun result =>
    { result with relevance_factors := explain_relevance result entities })
  sorted_results.take top_k

/-! ## Decision engine (`src/services/decision_engine.py`) -/

/-- A supporting-clause evidence entry; the heterogeneous Python dicts
are merged into one record with optional extra fields. -/
structure SupportingClause where
  /-- the `type` key (`coverage` / `waiting_period` / `exclusion` / `benefit_amount`) -/
  typ : String
  /-- `text`: first 200 characters of the passage plus `...` -/
  text : Str
  /-- `source`: the passage's filename -/
  source : String
  /-- the `section` key (coverage clauses only) -/
  section_ : Option String := none
  /-- `required_months` (waiting-period clauses only) -/
  required_months : Option ℚ := none
  /-- `reason` (exclusion clauses only) -/
  reason : Option String := none
  /-- `amount` (benefit clauses only) -/
  amount : Option ℚ := none
deriving DecidableEq, Repr

/-- Python `text[:200] + '...'` used in every evidence entry. -/
def clauseText (text : Str) : Str := text.take 200 ++ str "..."

/-- The truthy lowercased procedure entity used by all four analyses:
`entities.get('procedure', '').lower() if entities.get('procedure') else ''`. -/
def procEntity (entities : Entities) : Str :=
  match entities.procedure with
  | some p => if p ≠ [] then lowerStr p else []
  | none => []

/-- `DecisionEngine._get_procedure_variations`. -/
def get_procedure_variations (procedure : Str) : List Str :=
  let variations := [procedure]
  let variations := variations ++
    (if isSubstr (str "surgery") procedure then
      [replaceAll (str "surgery") (str "operation") procedure,
       replaceAll (str "surgery") (str "procedure") procedure] else [])
  let variations := variations ++
    (if isSubstr (str "knee") procedure then
      [str "knee replacement", str "knee arthroscopy", str "knee joint"] else [])
  let variations := variations ++
    (if isSubstr (str "heart") procedure then
      [str "cardiac", str "cardiovascular", str "coronary"] else [])
  variations

/-- Result of `_analyze_policy_compliance`. -/
structure ComplianceAnalysis where
  /-- `policy_active` (never changed by the source) -/
  policy_active : Bool := true
  /-- `coverage_found` -/
  coverage_found : Bool := false
  /-- `conditions_met` -/
  conditions_met : List String := []
  /-- `conditions_failed` (never appended by the source) -/
  conditions_failed : List String := []
  /-- `supporting_clauses` -/
  supporting_clauses : List SupportingClause := []
deriving DecidableEq, Repr

/-- `DecisionEngine._analyze_policy_compliance`: scan benefit/coverage
passages for the procedure or one of its lexical variations. -/
def analyze_policy_compliance (entities : Entities) (search_results : List Passage) :
    ComplianceAnalysis :=
  let procedure := procEntity entities
  search_results.foldl (fun analysis result =>
    let text_lower := lowerStr result.text
    if result.section_type ∈ ["benefit", "coverage"] ∧ procedure ≠ [] then
      if isSubstr procedure text_lower ∨
          (get_procedure_variations procedure).any (fun proc => isSubstr proc text_lower) then
        { analysis with
            coverage_found := true
            conditions_met := analysis.conditions_met ++
              ["Procedure \x27" ++ String.mk procedure ++ "\x27 found in benefits"]
            supporting_clauses := analysis.supporting_clauses ++
              [{ typ := "coverage", text := clauseText result.text,
                 source := result.filename, section_ := some result.section_type }] }
      else analysis
    else analysis) {}

/-- Result of `_check_waiting_periods`. -/
structure WaitingCheck where
  /-- `applicable` -/
  applicable : Bool := false
  /-- `satisfied` -/
  satisfied : Bool := false
  /-- `required_period` (months) -/
  required_period : Option ℚ := none
  /-- `current_period` (months) -/
  current_period : Option ℚ := none
  /-- `details` -/
  details : List String := []
  /-- `supporting_clauses` -/
  supporting_clauses : List SupportingClause := []
deriving DecidableEq, Repr

/-- Waiting-period duration pattern `(\d+)\s*month[s]?`. -/
def periodPatMonth : RE :=
  .seq (.group (plusC isDigitC)) (.seq wsStar (.seq (litW "month") (.opt (chari 's'))))

/-- Waiting-period duration pattern `(\d+)\s*year[s]?`. -/
def periodPatYear : RE :=
  .seq (.group (plusC isDigitC)) (.seq wsStar (.seq (litW "year") (.opt (chari 's'))))

/-- Waiting-period duration pattern `(\d+)\s*day[s]?`. -/
def periodPatDay : RE :=
  .seq (.group (plusC isDigitC)) (.seq wsStar (.seq (litW "day") (.opt (chari 's'))))

/-- The ordered `period_patterns` list of `_check_waiting_periods`. -/
def periodPatterns : List RE := [periodPatMonth, periodPatYear, periodPatDay]

/-- The inner pattern loop of `_check_waiting_periods`: `re.findall` for
each duration pattern in order; the first pattern with matches wins
(`break`) and contributes `int(matches[0])`. -/
def firstPeriodMatch (text_lower : Str) : Option Nat :=
  go periodPatterns
where
  /-- The pattern loop of the source. -/
  go : List RE → Option Nat
  | [] => none
  | p :: rest =>
      match refindall p text_lower with
      | [] => go rest
      | m :: _ => some (digitsToNat m)

/-- The per-passage step of `_check_waiting_periods` (the `break` of the
source only leaves the inner pattern loop, so the passage loop continues
and later matching passages overwrite the period fields; `satisfied` is
only ever set to `True`, never reset). -/
def waitingStep (procedure : Str) (current_months : ℚ) (wc : WaitingCheck)
    (result : Passage) : WaitingCheck :=
  let text := result.text
  let text_lower := lowerStr text
  if procedure ≠ [] ∧
      (isSubstr (str "waiting period") text_lower ∨ isSubstr (str "wait") text_lower) then
    match firstPeriodMatch text_lower with
    | some duration =>
        let required_months : ℚ :=
          if isSubstr (str "year") text_lower then ((duration * 12 : ℕ) : ℚ)
          else if isSubstr (str "day") text_lower then (duration : ℚ) / 30
          else (duration : ℚ)
        { wc with
            applicable := true
            required_period := some required_months
            current_period := some current_months
            satisfied := if current_months ≥ required_months then true else wc.satisfied
            details := wc.details ++
              [if current_months ≥ required_months then
                 "Waiting period satisfied: " ++ toString current_months ++ " >= " ++
                   toString required_months ++ " months"
               else
                 "Waiting period not satisfied: " ++ toString current_months ++ " < " ++
                   toString required_months ++ " months"]
            supporting_clauses := wc.supporting_clauses ++
              [{ typ := "waiting_period", text := clauseText text,
                 source := result.filename, required_months := some required_months }] }
    | none => wc
  else wc

/-- `DecisionEngine._check_waiting_periods`: immediately returns the
default (not applicable) check when no `policy_duration` entity is
present; otherwise folds `waitingStep` over all passages. -/
def check_waiting_periods (entities : Entities) (search_results : List Passage) :
    WaitingCheck :=
  let procedure := procEntity entities
  match entities.policy_duration with
  | none => {}
  | some policy_duration =>
      let current_months := policy_duration.months
      search_results.foldl (waitingStep procedure current_months) {}

/-- Result of `_check_exclusions`. -/
structure ExclusionCheck where
  /-- `excluded` -/
  excluded : Bool := false
  /-- `exclusion_reasons` -/
  exclusion_reasons : List String := []
  /-- `applicable_exclusions` (never appended by the source) -/
  applicable_exclusions : List String := []
  /-- `supporting_clauses` -/
  supporting_clauses : List SupportingClause := []
deriving DecidableEq, Repr

/-- Age-exclusion pattern `above\s+(\d+)\s+years?`. -/
def exclAgePat1 : RE :=
  .seq (litW "above")
    (.seq (plusC isSpaceC)
      (.seq (.group (plusC isDigitC))
        (.seq (plusC isSpaceC) (.seq (litW "year") (.opt (chari 's'))))))

/-- Age-exclusion pattern `over\s+(\d+)\s+years?`. -/
def exclAgePat2 : RE :=
  .seq (litW "over")
    (.seq (plusC isSpaceC)
      (.seq (.group (plusC isDigitC))
        (.seq (plusC isSpaceC) (.seq (litW "year") (.opt (chari 's'))))))

/-- Age-exclusion pattern `(\d+)\s+years?\s+and\s+above`. -/
def exclAgePat3 : RE :=
  .seq (.group (plusC isDigitC))
    (.seq (plusC isSpaceC)
      (.seq (litW "year")
        (.seq (.opt (chari 's'))
          (.seq (plusC isSpaceC)
            (.seq (litW "and") (.seq (plusC isSpaceC) (litW "above")))))))

/-- The ordered `age_patterns` list of `_check_exclusions`. -/
def exclAgePatterns : List RE := [exclAgePat1, exclAgePat2, exclAgePat3]

/-- `DecisionEngine._check_exclusions`: scan `exclusion` passages; mark
excluded on a verbatim procedure hit, or when an age-exclusion pattern
yields a threshold the (truthy) age exceeds. The age-pattern loop has no
`break`: every pattern with matches contributes. -/
def check_exclusions (entities : Entities) (search_results : List Passage) :
    ExclusionCheck :=
  let procedure := procEntity entities
  let age := entities.age
  search_results.foldl (fun check result =>
    let text := result.text
    let text_lower := lowerStr text
    if result.section_type == "exclusion" then
      let check :=
        if procedure ≠ [] ∧ isSubstr procedure text_lower then
          { check with
              excluded := true
              exclusion_reasons := check.exclusion_reasons ++
                ["Procedure \x27" ++ String.mk procedure ++ "\x27 found in exclusions"]
              supporting_clauses := check.supporting_clauses ++
                [{ typ := "exclusion", text := clauseText text, source := result.filename,
                   reason := some ("Procedure " ++ String.mk procedure ++ " excluded") }] }
        else check
      match age with
      | some a =>
          if a ≠ 0 then
            exclAgePatterns.foldl (fun check pattern =>
              match refindall pattern text_lower with
              | [] => check
              | m :: _ =>
                  let exclusion_age := digitsToNat m
                  if a > exclusion_age then
                    { check with
                        excluded := true
                        exclusion_reasons := check.exclusion_reasons ++
                          ["Age " ++ toString a ++ " exceeds exclusion limit of " ++
                            toString exclusion_age] }
                  else check) check
          else check
      | none => check
    else check) {}

/-- A `sub_limits` entry of `_calculate_benefit_amount`. -/
structure SubLimit where
  /-- the `procedure` key (`procedure or 'general'`) -/
  procedure : Str
  /-- the parsed `limit` -/
  limit : ℚ
  /-- `source`: the passage's filename -/
  source : String
  /-- the `section` key: the passage's section type -/
  section_ : String
deriving DecidableEq, Repr

/-- Result of `_calculate_benefit_amount`. -/
structure BenefitCalc where
  /-- `amount`: running maximum of procedure-relevant parsed amounts -/
  amount : ℚ := 0
  /-- `currency` -/
  currency : String := "INR"
  /-- `calculation_basis` -/
  calculation_basis : String := "sum_insured"
  /-- `sub_limits` -/
  sub_limits : List SubLimit := []
  /-- `deductions` (never appended by the source) -/
  deductions : List String := []
  /-- `supporting_clauses` -/
  supporting_clauses : List SupportingClause := []
deriving DecidableEq, Repr

/-- `\d+(?:,\d+)*(?:\.\d+)?`: the numeric capture of the engine's
currency patterns. -/
def numDec : RE :=
  .seq (plusC isDigitC)
    (.seq (.star (.seq (chari ',') (plusC isDigitC)))
      (.opt (.seq (chari '.') (plusC isDigitC))))

/-- Engine amount pattern 1: `₹\s*(\d+(?:,\d+)*(?:\.\d+)?)`. -/
def eAmtPat1 : RE := .seq (chari '₹') (.seq wsStar (.group numDec))

/-- Engine amount pattern 2: `rs\.?\s*(\d+(?:,\d+)*(?:\.\d+)?)`. -/
def eAmtPat2 : RE :=
  .seq (litW "rs") (.seq (.opt (chari '.')) (.seq wsStar (.group numDec)))

/-- Engine amount pattern 3: `rupees?\s*(\d+(?:,\d+)*(?:\.\d+)?)`. -/
def eAmtPat3 : RE :=
  .seq (litW "rupee") (.seq (.opt (chari 's')) (.seq wsStar (.group numDec)))

/-- Engine amount pattern 4: `inr\s*(\d+(?:,\d+)*(?:\.\d+)?)`. -/
def eAmtPat4 : RE := .seq (litW "inr") (.seq wsStar (.group numDec))

/-- Engine amount pattern 5: `(\d+(?:,\d+)*(?:\.\d+)?)\s*(?:rupees?|rs\.?|₹)`. -/
def eAmtPat5 : RE :=
  .seq (.group numDec)
    (.seq wsStar
      (.alt (.seq (litW "rupee") (.opt (chari 's')))
        (.alt (.seq (litW "rs") (.opt (chari '.'))) (chari '₹'))))

/-- The ordered `amount_patterns` list of `_calculate_benefit_amount`. -/
def eAmtPatterns : List RE := [eAmtPat1, eAmtPat2, eAmtPat3, eAmtPat4, eAmtPat5]

/-- Python `float(amount_str.replace(',', ''))`; the captures have shape
`\d+(?:,\d+)*(?:\.\d+)?`, so the parse never raises. -/
def parseAmount (amount_str : Str) : ℚ := decimalToRat (removeCommas amount_str)

/-- The sub-limit entry `_calculate_benefit_amount` records for one
matched amount (`procedure or 'general'`, the parsed limit, the source
filename and section type). -/
def subLimitOf (procedure : Str) (r : Passage) (a : ℚ) : SubLimit :=
  { procedure := if procedure = [] then str "general" else procedure,
    limit := a, source := r.filename, section_ := r.section_type }

/-- The supporting clause `_calculate_benefit_amount` records for one
matched amount. -/
def benefitClauseOf (r : Passage) (a : ℚ) : SupportingClause :=
  { typ := "benefit_amount", text := clauseText r.text,
    source := r.filename, amount := some a }

/-- The per-amount state update of `_calculate_benefit_amount`: keep
the running maximum and append the sub-limit entry and the supporting
clause. -/
def benefitUpd (procedure : Str) (r : Passage) (bc : BenefitCalc) (amount : ℚ) :
    BenefitCalc :=
  { bc with
      amount := if amount > bc.amount then amount else bc.amount
      sub_limits := bc.sub_limits ++ [subLimitOf procedure r amount]
      supporting_clauses := bc.supporting_clauses ++ [benefitClauseOf r amount] }

/-- The per-passage step of `_calculate_benefit_amount`: for each
currency pattern, for each match (`float` of the capture never fails),
apply the per-amount update — but only when the passage's text contains
the procedure (or no procedure entity is given). -/
def benefitStep (procedure : Str) (bc : BenefitCalc) (result : Passage) : BenefitCalc :=
  if result.section_type ∈ ["benefit", "limitation", "financial"] then
    eAmtPatterns.foldl (fun bc pattern =>
      (refindall pattern (lowerStr result.text)).foldl (fun bc amount_str =>
        if procedure = [] ∨ isSubstr procedure (lowerStr result.text) then
          benefitUpd procedure result bc (parseAmount amount_str)
        else bc) bc) bc
  else bc

/-- `DecisionEngine._calculate_benefit_amount`. -/
def calculate_benefit_amount (entities : Entities) (search_results : List Passage) :
    BenefitCalc :=
  let procedure := procEntity entities
  search_results.foldl (benefitStep procedure) {}

/-- The `decision_factors` sub-dict of the justification. -/
structure DecisionFactors where
  /-- `coverage_analysis` -/
  coverage_analysis : ComplianceAnalysis
  /-- `waiting_period_check` -/
  waiting_period_check : WaitingCheck
  /-- `exclusion_check` -/
  exclusion_check : ExclusionCheck
  /-- `benefit_calculation` -/
  benefit_calculation : BenefitCalc
deriving DecidableEq, Repr

/-- The `query_analysis` sub-dict of the justification. -/
structure QueryAnalysis where
  /-- `extracted_entities` -/
  extracted_entities : Entities
  /-- `confidence_factors` -/
  confidence_factors : List String
deriving DecidableEq, Repr

/-- The `justification` dict of a decision (`decision_factors` and
`query_analysis` are the empty dict in the error decision, modelled as
`none`). -/
structure Justification where
  /-- `primary_reason` -/
  primary_reason : String
  /-- `error_details` (error decisions only) -/
  error_details : Option String := none
  /-- `decision_factors` -/
  decision_factors : Option DecisionFactors := none
  /-- `supporting_evidence` -/
  supporting_evidence : List SupportingClause := []
  /-- `query_analysis` -/
  query_analysis : Option QueryAnalysis := none
deriving DecidableEq, Repr

/-- The `processing_details` dict (`decision_timestamp` is a wall-clock
value outside the pure model and is not modelled). -/
structure ProcessingDetails where
  /-- `documents_analyzed` (absent in the error decision) -/
  documents_analyzed : Option Nat := none
  /-- `relevant_sections_found` (absent in the error decision) -/
  relevant_sections_found : Option Nat := none
  /-- `error` (error decisions only; absent key modelled as `false`) -/
  error : Bool := false
  /-- `error_message` (error decisions only) -/
  error_message : Option String := none
deriving DecidableEq, Repr

/-- The `DecisionResult` dataclass. -/
structure DecisionResult where
  /-- `decision`: APPROVED / REJECTED / NEEDS_REVIEW / ERROR -/
  decision : String
  /-- `amount` -/
  amount : ℚ
  /-- `justification` -/
  justification : Justification
  /-- `confidence` -/
  confidence : ℚ
  /-- `processing_details` -/
  processing_details : ProcessingDetails
deriving DecidableEq, Repr

/-- `DecisionEngine._compile_supporting_evidence`: concatenation of the
four analyses' evidence lists. -/
def compile_supporting_evidence (comp : ComplianceAnalysis) (wait : WaitingCheck)
    (excl : ExclusionCheck) (ben : BenefitCalc) : List SupportingClause :=
  comp.supporting_clauses ++ wait.supporting_clauses ++
    excl.supporting_clauses ++ ben.supporting_clauses

/-- `DecisionEngine._analyze_confidence_factors`. -/
def analyze_confidence_factors (entities : Entities) (search_results : List Passage) :
    List String :=
  let entity_count := numEntities entities
  let factors :=
    if entity_count ≥ 3 then ["Complete entity extraction"]
    else if entity_count ≥ 2 then ["Partial entity extraction"]
    else ["Limited entity extraction"]
  let high_similarity_results :=
    (search_results.filter (fun r => decide (r.similarity_score > 0.8))).length
  let factors := factors ++
    (if high_similarity_results ≥ 3 then ["High-quality search results"]
     else if high_similarity_results ≥ 1 then ["Good search results"]
     else ["Limited search results"])
  let unique_documents := ((search_results.map (·.filename)).eraseDups).length
  factors ++
    (if unique_documents ≥ 2 then ["Multiple document sources"]
     else ["Single document source"])

/-- `DecisionEngine._calculate_decision_confidence`. -/
def calculate_decision_confidence (comp : ComplianceAnalysis) (wait : WaitingCheck)
    (excl : ExclusionCheck) (search_results : List Passage) : ℚ :=
  let base_confidence : ℚ := 0.6
  let base_confidence :=
    if excl.excluded ∧ excl.supporting_clauses ≠ [] then base_confidence + 0.2
    else base_confidence
  let base_confidence :=
    if comp.coverage_found ∧ comp.supporting_clauses ≠ [] then base_confidence + 0.15
    else base_confidence
  let base_confidence :=
    if wait.applicable ∧ ¬wait.satisfied then base_confidence + 0.15
    else base_confidence
  let avg_similarity :=
    (search_results.foldl (fun s r => s + r.similarity_score) 0) /
      (max (search_results.length : ℚ) 1)
  let base_confidence :=
    if avg_similarity > 0.8 then base_confidence + 0.1
    else if avg_similarity > 0.6 then base_confidence + 0.05
    else base_confidence
  min base_confidence 1

/-- `DecisionEngine._generate_final_decision`: the five-branch priority
resolution plus justification, confidence and processing details. -/
def generate_final_decision (comp : ComplianceAnalysis) (wait : WaitingCheck)
    (excl : ExclusionCheck) (ben : BenefitCalc) (entities : Entities)
    (search_results : List Passage) : DecisionResult :=
  let resolved : String × ℚ × String :=
    if excl.excluded then
      ("REJECTED", 0, "Procedure excluded under policy terms")
    else if wait.applicable ∧ ¬wait.satisfied then
      ("REJECTED", 0, "Waiting period not satisfied")
    else if comp.coverage_found then
      ("APPROVED", ben.amount, "Coverage applicable under policy terms")
    else if ¬comp.coverage_found then
      ("REJECTED", 0, "Procedure not covered under policy")
    else
      ("NEEDS_REVIEW", 0, "Insufficient information for automatic decision")
  { decision := resolved.1
    amount := resolved.2.1
    justification :=
      { primary_reason := resolved.2.2
        decision_factors := some ⟨comp, wait, excl, ben⟩
        supporting_evidence := compile_supporting_evidence comp wait excl ben
        query_analysis := some ⟨entities, analyze_confidence_factors entities search_results⟩ }
    confidence := calculate_decision_confidence comp wait excl search_results
    processing_details :=
      { documents_analyzed := some search_results.length
        relevant_sections_found :=
          some ((search_results.filter (fun r => decide (r.similarity_score > 0.7))).length) } }

/-- `DecisionEngine._create_error_decision`. -/
def create_error_decision (error_message : String) : DecisionResult :=
  { decision := "ERROR"
    amount := 0
    justification :=
      { primary_reason := "Processing error occurred"
        error_details := some error_message }
    confidence := 0
    processing_details := { error := true, error_message := some error_message } }

/-- The body of the `try` block of `make_decision`: run the four
analyses (each embedded as an `Except`-valued computation so that a
raised exception is a `.error`), then the final synthesis. -/
def make_decision_body (comp : Except String ComplianceAnalysis)
    (wait : Except String WaitingCheck) (excl : Except String ExclusionCheck)
    (ben : Except String BenefitCalc) (entities : Entities)
    (search_results : List Passage) : Except String DecisionResult :=
  match comp with
  | .error e => .error e
  | .ok compliance_analysis =>
    match wait with
    | .error e => .error e
    | .ok waiting_period_check =>
      match excl with
      | .error e => .error e
      | .ok exclusion_check =>
        match ben with
        | .error e => .error e
        | .ok benefit_calculation =>
          .ok (generate_final_decision compliance_analysis waiting_period_check
            exclusion_check benefit_calculation entities search_results)

/-- `DecisionEngine.make_decision`'s `try`/`except` boundary: any failure
of the body is caught and converted to the error decision; the function
is total (no exception propagates to the caller). -/
def make_decision (body : Except String DecisionResult) : DecisionResult :=
  match body with
  | .ok decision_result => decision_result
  | .error e => create_error_decision e

/-- `DecisionEngine.make_decision` on the non-exceptional path: the four
analyses succeed and feed the final synthesis. -/
def make_decision_run (entities : Entities) (search_results : List Passage) :
    DecisionResult :=
  make_decision (make_decision_body
    (.ok (analyze_policy_compliance entities search_results))
    (.ok (check_waiting_periods entities search_results))
    (.ok (check_exclusions entities search_results))
    (.ok (calculate_benefit_amount entities search_results))
    entities search_results)

/-! ## Claims: decision priority and decision invariants (C1, C2, C3, C8) -/

/-- Spec-side rendering of the five-branch decision priority of §4.3
(first true branch wins), used to compare the engine's resolution
against the claim's branch table. -/
def specDecisionPriority (excluded applicable satisfied coverage_found : Bool)
    (benefit_amount : ℚ) : String × ℚ :=
  if excluded then ("REJECTED", 0)
  else if applicable && !satisfied then ("REJECTED", 0)
  else if coverage_found then ("APPROVED", benefit_amount)
  else if !coverage_found then ("REJECTED", 0)
  else ("NEEDS_REVIEW", 0)

/-- Branch `i` of the five-branch priority fires: its own guard holds
and no earlier guard does. -/
abbrev decisionBranchFires (excluded applicable satisfied coverage_found : Bool)
    (i : Fin 5) : Prop :=
  (i = 0 ∧ excluded = true) ∨
  (i = 1 ∧ excluded = false ∧ (applicable && !satisfied) = true) ∨
  (i = 2 ∧ excluded = false ∧ (applicable && !satisfied) = false ∧
    coverage_found = true) ∨
  (i = 3 ∧ excluded = false ∧ (applicable && !satisfied) = false ∧
    coverage_found = false ∧ (!coverage_found) = true) ∨
  (i = 4 ∧ excluded = false ∧ (applicable && !satisfied) = false ∧
    coverage_found = false ∧ (!coverage_found) = false)

/-- For any four guard values, exactly one of the five prioritized
branches fires. -/
theorem decisionBranchFires_unique (e a s c : Bool) :
    ∃! i : Fin 5, decisionBranchFires e a s c i := by
  cases e <;> cases a <;> cases s <;> cases c <;>
    first
      | exact ⟨0, by decide, by decide⟩
      | exact ⟨1, by decide, by decide⟩
      | exact ⟨2, by decide, by decide⟩
      | exact ⟨3, by decide, by decide⟩

/-- C1: for every fixed input, the resolution of
`_generate_final_decision` equals the five-branch priority table (first
true branch wins: exclusion → REJECTED/0, unsatisfied applicable waiting
period → REJECTED/0, coverage found → APPROVED with the benefit
calculation's amount, no coverage → REJECTED/0, otherwise NEEDS_REVIEW/0),
and exactly one of the five branches fires, so the resolution is total
and deterministic. -/
theorem decision_priority_total_deterministic
    (comp : ComplianceAnalysis) (wait : WaitingCheck) (excl : ExclusionCheck)
    (ben : BenefitCalc) (entities : Entities) (search_results : List Passage) :
    (((generate_final_decision comp wait excl ben entities search_results).decision,
      (generate_final_decision comp wait excl ben entities search_results).amount) =
      specDecisionPriority excl.excluded wait.applicable wait.satisfied
        comp.coverage_found ben.amount) ∧
    (∃! i : Fin 5, decisionBranchFires excl.excluded wait.applicable wait.satisfied
      comp.coverage_found i) := by
  refine ⟨?_, decisionBranchFires_unique _ _ _ _⟩
  cases hE : excl.excluded <;> cases hA : wait.applicable <;>
    cases hS : wait.satisfied <;> cases hC : comp.coverage_found <;>
    simp [generate_final_decision, specDecisionPriority, hE, hA, hS, hC]

/-- C2: every decision produced by the engine — the synthesis of the
four analyses when they all succeed, or the ERROR decision when any of
them fails — satisfies `amount > 0 → decision = APPROVED`; equivalently
any non-APPROVED decision has amount 0. -/
theorem amount_positive_implies_approved
    (comp : Except String ComplianceAnalysis) (wait : Except String WaitingCheck)
    (excl : Except String ExclusionCheck) (ben : Except String BenefitCalc)
    (entities : Entities) (search_results : List Passage) :
    (0 < (make_decision (make_decision_body comp wait excl ben entities search_results)).amount →
      (make_decision (make_decision_body comp wait excl ben entities search_results)).decision =
        "APPROVED") ∧
    ((make_decision (make_decision_body comp wait excl ben entities search_results)).decision ≠
        "APPROVED" →
      (make_decision (make_decision_body comp wait excl ben entities search_results)).amount = 0) := by
  cases comp with
  | error e => simp [make_decision, make_decision_body, create_error_decision]
  | ok c =>
    cases wait with
    | error e => simp [make_decision, make_decision_body, create_error_decision]
    | ok w =>
      cases excl with
      | error e => simp [make_decision, make_decision_body, create_error_decision]
      | ok x =>
        cases ben with
        | error e => simp [make_decision, make_decision_body, create_error_decision]
        | ok b =>
          cases hE : x.excluded <;> cases hA : w.applicable <;>
            cases hS : w.satisfied <;> cases hC : c.coverage_found <;>
            simp [make_decision, make_decision_body, generate_final_decision,
              hE, hA, hS, hC]

/-- Witness for C2 at a concrete input with a positive amount. -/
theorem amount_positive_implies_approved_witness :
    (make_decision (make_decision_body (Except.ok { coverage_found := true })
      (Except.ok {}) (Except.ok {}) (Except.ok { amount := 5000 }) {} [])).decision =
      "APPROVED" :=
  (amount_positive_implies_approved (Except.ok { coverage_found := true })
    (Except.ok {}) (Except.ok {}) (Except.ok { amount := 5000 }) {} []).1 (by decide)

/-- C3: the engine never returns a NEEDS_REVIEW decision: branches 3
(`coverage_found`) and 4 (`not coverage_found`) of the priority are
exhaustive, so the final `else` is unreachable and every produced label
is APPROVED, REJECTED or ERROR. -/
theorem needs_review_unreachable
    (comp : Except String ComplianceAnalysis) (wait : Except String WaitingCheck)
    (excl : Except String ExclusionCheck) (ben : Except String BenefitCalc)
    (entities : Entities) (search_results : List Passage) :
    (make_decision (make_decision_body comp wait excl ben entities search_results)).decision ≠
      "NEEDS_REVIEW" ∧
    ((make_decision (make_decision_body comp wait excl ben entities search_results)).decision =
        "APPROVED" ∨
     (make_decision (make_decision_body comp wait excl ben entities search_results)).decision =
        "REJECTED" ∨
     (make_decision (make_decision_body comp wait excl ben entities search_results)).decision =
        "ERROR") := by
  cases comp with
  | error e => simp [make_decision, make_decision_body, create_error_decision]
  | ok c =>
    cases wait with
    | error e => simp [make_decision, make_decision_body, create_error_decision]
    | ok w =>
      cases excl with
      | error e => simp [make_decision, make_decision_body, create_error_decision]
      | ok x =>
        cases ben with
        | error e => simp [make_decision, make_decision_body, create_error_decision]
        | ok b =>
          cases hE : x.excluded <;> cases hA : w.applicable <;>
            cases hS : w.satisfied <;> cases hC : c.coverage_found <;>
            simp [make_decision, make_decision_body, generate_final_decision,
              hE, hA, hS, hC]

/-- C8: an exception in any of the four analyses makes the whole `try`
body fail with that message, and the catch boundary converts any failed
body into the ERROR decision — label ERROR, amount 0, confidence 0, the
failure message stored in the justification. `make_decision` itself is
total, so no exception reaches the caller. -/
theorem error_decision_on_analysis_failure
    (comp : Except String ComplianceAnalysis) (wait : Except String WaitingCheck)
    (excl : Except String ExclusionCheck) (ben : Except String BenefitCalc)
    (entities : Entities) (search_results : List Passage) (e : String) :
    (make_decision_body comp wait excl ben entities search_results = Except.error e →
      make_decision (make_decision_body comp wait excl ben entities search_results) =
        create_error_decision e ∧
      (create_error_decision e).decision = "ERROR" ∧
      (create_error_decision e).amount = 0 ∧
      (create_error_decision e).confidence = 0 ∧
      (create_error_decision e).justification.error_details = some e) ∧
    (comp = Except.error e →
      make_decision_body comp wait excl ben entities search_results = Except.error e) ∧
    (∀ c, comp = Except.ok c → wait = Except.error e →
      make_decision_body comp wait excl ben entities search_results = Except.error e) ∧
    (∀ c w, comp = Except.ok c → wait = Except.ok w → excl = Except.error e →
      make_decision_body comp wait excl ben entities search_results = Except.error e) ∧
    (∀ c w x, comp = Except.ok c → wait = Except.ok w → excl = Except.ok x →
      ben = Except.error e →
      make_decision_body comp wait excl ben entities search_results = Except.error e) := by
  refine ⟨fun h => ?_, fun h => ?_, fun c hc h => ?_, fun c w hc hw h => ?_,
    fun c w x hc hw hx h => ?_⟩ <;>
    subst_vars <;>
    simp_all [make_decision, make_decision_body, create_error_decision]

/-- Witness for C8 at a concrete failing analysis. -/
theorem error_decision_on_analysis_failure_witness :
    make_decision (make_decision_body (Except.error "boom") (Except.ok {})
      (Except.ok {}) (Except.ok {}) {} []) = create_error_decision "boom" ∧
    (create_error_decision "boom").decision = "ERROR" ∧
    (create_error_decision "boom").amount = 0 ∧
    (create_error_decision "boom").confidence = 0 ∧
    (create_error_decision "boom").justification.error_details = some "boom" :=
  (error_decision_on_analysis_failure (Except.error "boom") (Except.ok {})
    (Except.ok {}) (Except.ok {}) {} [] "boom").1 (by rfl)

/-! ## Claims: parser confidence (C9) and boost caps (C6) -/

/-- A conditional-increment fold computes `a + c·|filter|` (the shape of
every `sum(c for t in terms if t in text)` accumulation in the source). -/
theorem foldl_if_add {β : Type} (P : β → Bool) (c : ℚ) :
    ∀ (l : List β) (a : ℚ),
      l.foldl (fun b x => if P x then b + c else b) a =
        a + ((l.filter P).length : ℚ) * c := by
  intro l
  induction l with
  | nil => intro a; simp
  | cons x xs ih =>
      intro a
      by_cases hx : P x
      · simp only [List.foldl_cons, hx, if_true, ih, List.filter_cons, List.length_cons]
        push_cast
        ring
      · simp [hx, ih, List.filter_cons]

/-- `round(x, 2)` is the identity on rationals whose hundredfold is an
integer. -/
theorem pyRound2_eq_self (x : ℚ) (m : ℤ) (h : x * 100 = (m : ℚ)) :
    pyRound2 x = x := by
  have hx : x = (m : ℚ) / 100 := by
    field_simp
    linarith [h]
  unfold pyRound2
  rw [h, round_intCast, hx]

/-- C9: the parser confidence equals
`min(0.5 + 0.1·|entities| + 0.05·(#medical hits) + 0.05·(#insurance hits)
+ 0.1·[has digit] + 0.1·[has comma], 1)` — the two-decimal rounding is
the identity because the sum is a multiple of `0.05` — and it always
lies in `[0, 1]`. Determinism over identical input holds because the
embedded parser is a pure function of the query text. -/
theorem parser_confidence_formula (query : Str) (entities : Entities) :
    calculate_confidence query entities =
      min ((0.5 : ℚ) + (numEntities entities : ℚ) * 0.1 +
        ((confMedicalTerms.filter (fun t => isSubstr t (lowerStr query))).length : ℚ) * 0.05 +
        ((confInsuranceTerms.filter (fun t => isSubstr t (lowerStr query))).length : ℚ) * 0.05 +
        (if query.any isDigitC then (0.1 : ℚ) else 0) +
        (if query.contains ',' then (0.1 : ℚ) else 0)) 1 ∧
    0 ≤ calculate_confidence query entities ∧
    calculate_confidence query entities ≤ 1 := by
  have hform : calculate_confidence query entities =
      pyRound2 (min ((0.5 : ℚ) + (numEntities entities : ℚ) * 0.1 +
        ((confMedicalTerms.filter (fun t => isSubstr t (lowerStr query))).length : ℚ) * 0.05 +
        ((confInsuranceTerms.filter (fun t => isSubstr t (lowerStr query))).length : ℚ) * 0.05 +
        (if query.any isDigitC then (0.1 : ℚ) else 0) +
        (if query.contains ',' then (0.1 : ℚ) else 0)) 1) := by
    unfold calculate_confidence
    rw [foldl_if_add, foldl_if_add]
    ring_nf
  set n : ℚ := (numEntities entities : ℚ) with hn
  set k1 : ℚ := ((confMedicalTerms.filter (fun t => isSubstr t (lowerStr query))).length : ℚ)
    with hk1
  set k2 : ℚ := ((confInsuranceTerms.filter (fun t => isSubstr t (lowerStr query))).length : ℚ)
    with hk2
  have hn0 : 0 ≤ n := by rw [hn]; positivity
  have hk10 : 0 ≤ k1 := by rw [hk1]; positivity
  have hk20 : 0 ≤ k2 := by rw [hk2]; positivity
  set d : ℚ := (if query.any isDigitC then (0.1 : ℚ) else 0) with hd
  set cm : ℚ := (if query.contains ',' then (0.1 : ℚ) else 0) with hcm
  have hS : ∃ m : ℤ, ((0.5 : ℚ) + n * 0.1 + k1 * 0.05 + k2 * 0.05 + d + cm) * 100 = (m : ℚ) := by
    obtain ⟨a, ha⟩ : ∃ a : ℤ, n = (a : ℚ) := ⟨(numEntities entities : ℤ), by rw [hn]; push_cast; rfl⟩
    obtain ⟨b1, hb1⟩ : ∃ b : ℤ, k1 = (b : ℚ) :=
      ⟨((confMedicalTerms.filter (fun t => isSubstr t (lowerStr query))).length : ℤ), by
        rw [hk1]; push_cast; rfl⟩
    obtain ⟨b2, hb2⟩ : ∃ b : ℤ, k2 = (b : ℚ) :=
      ⟨((confInsuranceTerms.filter (fun t => isSubstr t (lowerStr query))).length : ℤ), by
        rw [hk2]; push_cast; rfl⟩
    rw [hd, hcm]
    split_ifs
    · exact ⟨50 + 10 * a + 5 * b1 + 5 * b2 + 20, by rw [ha, hb1, hb2]; push_cast; ring⟩
    · exact ⟨50 + 10 * a + 5 * b1 + 5 * b2 + 10, by rw [ha, hb1, hb2]; push_cast; ring⟩
    · exact ⟨50 + 10 * a + 5 * b1 + 5 * b2 + 10, by rw [ha, hb1, hb2]; push_cast; ring⟩
    · exact ⟨50 + 10 * a + 5 * b1 + 5 * b2, by rw [ha, hb1, hb2]; push_cast; ring⟩
  obtain ⟨m, hm⟩ := hS
  have hmin : ∃ m' : ℤ,
      (min ((0.5 : ℚ) + n * 0.1 + k1 * 0.05 + k2 * 0.05 + d + cm) 1) * 100 = (m' : ℚ) := by
    refine ⟨min m 100, ?_⟩
    rw [min_mul_of_nonneg _ _ (by norm_num : (0 : ℚ) ≤ 100), hm]
    push_cast
    norm_num
  obtain ⟨m', hm'⟩ := hmin
  have hid := pyRound2_eq_self _ m' hm'
  have hd0 : 0 ≤ d := by rw [hd]; split_ifs <;> norm_num
  have hcm0 : 0 ≤ cm := by rw [hcm]; split_ifs <;> norm_num
  refine ⟨by rw [hform, hid], ?_, ?_⟩
  · rw [hform, hid]
    have : (0 : ℚ) ≤ (0.5 : ℚ) + n * 0.1 + k1 * 0.05 + k2 * 0.05 + d + cm := by positivity
    exact le_min this (by norm_num)
  · rw [hform, hid]
    exact min_le_right _ _

/-- C6: each boost component is nonnegative and capped
(`keyword ≤ 0.2`, `section ≤ 0.3`, `entity ≤ 0.25`), the fused score of
`_enhance_with_keyword_search` is exactly
`min(base + keyword + section + entity, 1)`, and for a base score in
`[0, 1]` the fused score is again in `[0, 1]`. -/
theorem boost_caps_and_fusion (query : Str) (entities : Entities) (result : Passage)
    (h0 : 0 ≤ result.similarity_score) (_h1 : result.similarity_score ≤ 1) :
    (0 ≤ calculate_keyword_boost query entities result.text ∧
      calculate_keyword_boost query entities result.text ≤ 0.2) ∧
    (0 ≤ calculate_section_boost entities result.section_type ∧
      calculate_section_boost entities result.section_type ≤ 0.3) ∧
    (0 ≤ calculate_entity_boost entities result.text ∧
      calculate_entity_boost entities result.text ≤ 0.25) ∧
    enhance_with_keyword_search query entities [result] =
      [{ result with
          similarity_score := min (result.similarity_score +
            calculate_keyword_boost query entities result.text +
            calculate_section_boost entities result.section_type +
            calculate_entity_boost entities result.text) 1,
          boost_factors := some ⟨calculate_keyword_boost query entities result.text,
            calculate_section_boost entities result.section_type,
            calculate_entity_boost entities result.text⟩ }] ∧
    (∀ r ∈ enhance_with_keyword_search query entities [result],
      0 ≤ r.similarity_score ∧ r.similarity_score ≤ 1) := by
  have hkb : 0 ≤ calculate_keyword_boost query entities result.text ∧
      calculate_keyword_boost query entities result.text ≤ 0.2 := by
    unfold calculate_keyword_boost
    constructor
    · refine le_min ?_ (by norm_num)
      split_ifs
      · rw [foldl_if_add, foldl_if_add]; positivity
      · rw [foldl_if_add]; positivity
    · exact min_le_right _ _
  have hsb : 0 ≤ calculate_section_boost entities result.section_type ∧
      calculate_section_boost entities result.section_type ≤ 0.3 := by
    unfold calculate_section_boost
    constructor
    · refine le_min ?_ (by norm_num)
      split_ifs <;> norm_num
    · exact min_le_right _ _
  have heb : 0 ≤ calculate_entity_boost entities result.text ∧
      calculate_entity_boost entities result.text ≤ 0.25 := by
    unfold calculate_entity_boost
    constructor
    · refine le_min ?_ (by norm_num)
      rcases entities.procedure with _ | p <;> rcases entities.location with _ | l <;>
        rcases entities.age with _ | a <;> simp only <;>
        first
          | (split_ifs <;> norm_num)
          | norm_num
    · exact min_le_right _ _
  refine ⟨hkb, hsb, heb, rfl, ?_⟩
  intro r hr
  simp only [enhance_with_keyword_search, List.map_cons, List.map_nil,
    List.mem_singleton] at hr
  subst hr
  dsimp only
  constructor
  · refine le_min ?_ (by norm_num)
    have h2 := hkb.1
    have h3 := hsb.1
    have h4 := heb.1
    linarith
  · exact min_le_right _ _

/-- Concrete passage for the C6 witness: base score `1/2`. -/
def boostWitP : Passage :=
  { text := str "knee surgery covered", section_type := "benefit",
    filename := "f", similarity_score := 1/2 }

/-- Witness for C6 at a concrete passage with base score `1/2`. -/
theorem boost_caps_and_fusion_witness :
    0 ≤ calculate_keyword_boost (str "knee surgery") {} boostWitP.text ∧
    calculate_keyword_boost (str "knee surgery") {} boostWitP.text ≤ 0.2 :=
  (boost_caps_and_fusion (str "knee surgery") {} boostWitP
    (by norm_num [boostWitP]) (by norm_num [boostWitP])).1

/-! ## Claim: ranking filter / stable descending sort / truncation (C7) -/

/-- Membership in a stable descending insertion. -/
theorem mem_insertDesc {x a : Passage} {l : List Passage} :
    x ∈ insertDesc a l ↔ x = a ∨ x ∈ l := by
  induction l with
  | nil => simp [insertDesc]
  | cons y ys ih =>
      unfold insertDesc
      split_ifs
      · simp
      · simp only [List.mem_cons, ih]
        tauto

/-- `pysortDesc` preserves membership. -/
theorem mem_pysortDesc {x : Passage} {l : List Passage} :
    x ∈ pysortDesc l ↔ x ∈ l := by
  induction l with
  | nil => simp [pysortDesc]
  | cons y ys ih => simp [pysortDesc, mem_insertDesc, ih]

/-- Inserting into a descending-sorted list keeps it sorted. -/
theorem pairwise_insertDesc (x : Passage) (l : List Passage)
    (h : l.Pairwise (fun a b => b.similarity_score ≤ a.similarity_score)) :
    (insertDesc x l).Pairwise (fun a b => b.similarity_score ≤ a.similarity_score) := by
  induction l with
  | nil => simp [insertDesc]
  | cons y ys ih =>
      unfold insertDesc
      rcases List.pairwise_cons.mp h with ⟨hy, hys⟩
      split_ifs with hxy
      · refine List.pairwise_cons.mpr ⟨?_, h⟩
        intro z hz
        rcases List.mem_cons.mp hz with rfl | hz
        · exact hxy
        · exact le_trans (hy z hz) hxy
      · refine List.pairwise_cons.mpr ⟨?_, ih hys⟩
        intro z hz
        rcases mem_insertDesc.mp hz with rfl | hz
        · exact le_of_lt (lt_of_not_le hxy)
        · exact hy z hz

/-- `pysortDesc` sorts descending by score. -/
theorem pairwise_pysortDesc (l : List Passage) :
    (pysortDesc l).Pairwise (fun a b => b.similarity_score ≤ a.similarity_score) := by
  induction l with
  | nil => simp [pysortDesc]
  | cons y ys ih => exact pairwise_insertDesc y (pysortDesc ys) ih

/-- Filtering an insertion by an exact score: the skipped elements all
have a strictly larger score, so the insertion lands before none of the
equal-score elements. -/
theorem filter_insertDesc (s : ℚ) (x : Passage) (l : List Passage) :
    (insertDesc x l).filter (fun r => decide (r.similarity_score = s)) =
      if x.similarity_score = s then
        x :: l.filter (fun r => decide (r.similarity_score = s))
      else l.filter (fun r => decide (r.similarity_score = s)) := by
  induction l with
  | nil =>
      by_cases hxs : x.similarity_score = s <;>
        simp [insertDesc, List.filter_cons, hxs]
  | cons y ys ih =>
      unfold insertDesc
      split_ifs with hxy hxs hxs2
      · simp [List.filter_cons, hxs]
      · simp [List.filter_cons, hxs]
      · by_cases hys' : y.similarity_score = s
        · have hlt : x.similarity_score < y.similarity_score := lt_of_not_le hxy
          rw [hxs2, hys'] at hlt
          exact absurd hlt (lt_irrefl s)
        · simp [List.filter_cons, hys', ih, hxs2]
      · by_cases hys' : y.similarity_score = s <;> simp [List.filter_cons, hys', ih, hxs2]

/-- Stability of the descending sort: for every exact score value, the
sorted list restricted to that score equals the input restricted to that
score — equal-score passages keep their input relative order. -/
theorem filter_pysortDesc (s : ℚ) (l : List Passage) :
    (pysortDesc l).filter (fun r => decide (r.similarity_score = s)) =
      l.filter (fun r => decide (r.similarity_score = s)) := by
  induction l with
  | nil => rfl
  | cons y ys ih =>
      unfold pysortDesc
      rw [filter_insertDesc]
      by_cases hys : y.similarity_score = s <;> simp [List.filter_cons, hys, ih]

/-- C7: the output of `_rank_and_filter_results` (a) contains only
passages whose boosted score reaches the threshold, (b) is sorted
descending by boosted score, and the sort is stable (for every score
value the sorted order of equal-score passages equals their input
order), (c) has length at most `top_k`, and equals the filtered,
stably-sorted, relevance-annotated list truncated to `top_k`. -/
theorem rank_filter_sort_properties (results : List Passage) (entities : Entities)
    (similarity_threshold : ℚ) (top_k : Nat) :
    (∀ r ∈ rank_and_filter_results results entities similarity_threshold top_k,
      similarity_threshold ≤ r.similarity_score) ∧
    (rank_and_filter_results results entities similarity_threshold top_k).Pairwise
      (fun a b => b.similarity_score ≤ a.similarity_score) ∧
    (∀ s : ℚ,
      (pysortDesc (results.filter
          (fun r => decide (similarity_threshold ≤ r.similarity_score)))).filter
            (fun r => decide (r.similarity_score = s)) =
        (results.filter (fun r => decide (similarity_threshold ≤ r.similarity_score))).filter
          (fun r => decide (r.similarity_score = s))) ∧
    (rank_and_filter_results results entities similarity_threshold top_k).length ≤ top_k ∧
    rank_and_filter_results results entities similarity_threshold top_k =
      ((pysortDesc (results.filter
          (fun r => decide (similarity_threshold ≤ r.similarity_score)))).map
        (fun r => { r with relevance_factors := explain_relevance r entities })).take top_k := by
  refine ⟨?_, ?_, fun s => filter_pysortDesc s _, ?_, rfl⟩
  · intro r hr
    unfold rank_and_filter_results at hr
    have hr' := List.mem_of_mem_take hr
    rcases List.mem_map.mp hr' with ⟨orig, horig, rfl⟩
    have horig' := mem_pysortDesc.mp horig
    have := List.of_mem_filter horig'
    simpa using this
  · unfold rank_and_filter_results
    refine List.Pairwise.sublist (List.take_sublist _ _) ?_
    refine List.Pairwise.map _ ?_ (pairwise_pysortDesc _)
    intro a b hab
    simpa using hab
  · unfold rank_and_filter_results
    exact List.length_take_le _ _

/-- Witness for C7 at a concrete two-passage input. -/
theorem rank_filter_sort_properties_witness :
    (rank_and_filter_results
      [{ text := str "a", section_type := "benefit", filename := "f", similarity_score := 0.8 },
       { text := str "b", section_type := "general", filename := "f", similarity_score := 0.9 }]
      {} 0.7 1).length ≤ 1 :=
  (rank_filter_sort_properties
    [{ text := str "a", section_type := "benefit", filename := "f", similarity_score := 0.8 },
     { text := str "b", section_type := "general", filename := "f", similarity_score := 0.9 }]
    {} 0.7 1).2.2.2.1

/-! ## Claim: waiting-period check (C5) -/

/-- The per-passage waiting-period requirement: `some required_months`
exactly when the source's per-passage branch fires (procedure truthy,
text mentions `waiting period` / `wait`, and the first duration pattern
with matches yields the duration, normalized by the text-wide unit
check). -/
def passageWaitingReq (procedure : Str) (result : Passage) : Option ℚ :=
  let text_lower := lowerStr result.text
  if procedure ≠ [] ∧
      (isSubstr (str "waiting period") text_lower ∨ isSubstr (str "wait") text_lower) then
    match firstPeriodMatch text_lower with
    | some duration =>
        some (if isSubstr (str "year") text_lower then ((duration * 12 : ℕ) : ℚ)
          else if isSubstr (str "day") text_lower then (duration : ℚ) / 30
          else (duration : ℚ))
    | none => none
  else none

/-- A passage on which the waiting branch does not fire leaves the check
unchanged. -/
theorem waitingStep_none (procedure : Str) (m : ℚ) (wc : WaitingCheck) (r : Passage)
    (h : passageWaitingReq procedure r = none) :
    waitingStep procedure m wc r = wc := by
  unfold passageWaitingReq at h
  unfold waitingStep
  dsimp only at h ⊢
  by_cases hc : procedure ≠ [] ∧
      (isSubstr (str "waiting period") (lowerStr r.text) = true ∨
        isSubstr (str "wait") (lowerStr r.text) = true)
  · rw [if_pos hc] at h ⊢
    cases hm : firstPeriodMatch (lowerStr r.text) with
    | none => rfl
    | some d => rw [hm] at h; exact absurd h (by simp)
  · rw [if_neg hc]

/-- A passage on which the waiting branch fires overwrites the period
fields, sets `applicable`, and ors the satisfaction flag. -/
theorem waitingStep_some (procedure : Str) (m : ℚ) (wc : WaitingCheck) (r : Passage)
    (q : ℚ) (h : passageWaitingReq procedure r = some q) :
    (waitingStep procedure m wc r).applicable = true ∧
    (waitingStep procedure m wc r).required_period = some q ∧
    (waitingStep procedure m wc r).current_period = some m ∧
    (waitingStep procedure m wc r).satisfied = (wc.satisfied || decide (m ≥ q)) := by
  unfold passageWaitingReq at h
  unfold waitingStep
  dsimp only at h ⊢
  by_cases hc : procedure ≠ [] ∧
      (isSubstr (str "waiting period") (lowerStr r.text) = true ∨
        isSubstr (str "wait") (lowerStr r.text) = true)
  · rw [if_pos hc] at h ⊢
    cases hm : firstPeriodMatch (lowerStr r.text) with
    | none => rw [hm] at h; exact absurd h (by simp)
    | some d =>
        rw [hm] at h
        have hq : q = (if isSubstr (str "year") (lowerStr r.text) then ((d * 12 : ℕ) : ℚ)
            else if isSubstr (str "day") (lowerStr r.text) then (d : ℚ) / 30
            else (d : ℚ)) := by
          simpa using h.symm
        subst hq
        refine ⟨rfl, rfl, rfl, ?_⟩
        by_cases hs : m ≥ (if isSubstr (str "year") (lowerStr r.text) then ((d * 12 : ℕ) : ℚ)
            else if isSubstr (str "day") (lowerStr r.text) then (d : ℚ) / 30
            else (d : ℚ)) <;>
          simp [hs, Bool.or_comm]
  · rw [if_neg hc] at h; exact absurd h (by simp)

/-- Characterization of the passage fold of `_check_waiting_periods`:
every matching passage is processed (no early exit), the period fields
come from the *last* matching passage, and `satisfied` is the sticky
any-of over matching passages. -/
theorem waiting_fold (procedure : Str) (m : ℚ) :
    ∀ (results : List Passage) (wc : WaitingCheck),
      ((results.foldl (waitingStep procedure m) wc).applicable =
        (wc.applicable || !(results.filterMap (passageWaitingReq procedure)).isEmpty)) ∧
      ((results.foldl (waitingStep procedure m) wc).required_period =
        (if (results.filterMap (passageWaitingReq procedure)).isEmpty then wc.required_period
         else (results.filterMap (passageWaitingReq procedure)).getLast?)) ∧
      ((results.foldl (waitingStep procedure m) wc).current_period =
        (if (results.filterMap (passageWaitingReq procedure)).isEmpty then wc.current_period
         else some m)) ∧
      ((results.foldl (waitingStep procedure m) wc).satisfied =
        (wc.satisfied ||
          (results.filterMap (passageWaitingReq procedure)).any (fun q => decide (m ≥ q)))) := by
  intro results
  induction results with
  | nil => intro wc; simp
  | cons r rest ih =>
      intro wc
      cases h : passageWaitingReq procedure r with
      | none =>
          simp only [List.foldl_cons, List.filterMap_cons, h]
          rw [waitingStep_none procedure m wc r h]
          exact ih wc
      | some q =>
          obtain ⟨ha, hr, hc, hs⟩ := waitingStep_some procedure m wc r q h
          have ihw := ih (waitingStep procedure m wc r)
          simp only [List.foldl_cons, List.filterMap_cons, h]
          refine ⟨?_, ?_, ?_, ?_⟩
          · rw [ihw.1, ha]; simp
          · rw [ihw.2.1, hr]
            cases hrest : (rest.filterMap (passageWaitingReq procedure)) with
            | nil => simp
            | cons q' qs => simp [List.getLast?_cons_cons]
          · rw [ihw.2.2.1, hc]
            cases hrest : (rest.filterMap (passageWaitingReq procedure)) with
            | nil => simp
            | cons q' qs => simp
          · rw [ihw.2.2.2, hs]
            simp [Bool.or_assoc]

/-- C5 (amended): the waiting-period check returns the untouched default
(`applicable = false`) when no `policy_duration` entity is present; with
one present, `applicable` holds iff some passage fires the waiting
branch, the required/current periods come from the **last** matching
passage (the source's `break` only leaves the inner pattern loop, so
later matching passages overwrite earlier ones), and `satisfied` is
sticky: it holds iff the policy duration covers the requirement of *some*
matching passage. Per passage, the month/year/day regexes are tried in
order with the first matching pattern winning, and the requirement is
normalized to months (`×12` when the text mentions years, `/30` for
days). -/
theorem waiting_period_amended (entities : Entities) (results : List Passage) :
    (entities.policy_duration = none → check_waiting_periods entities results = {}) ∧
    (∀ pd, entities.policy_duration = some pd →
      ((check_waiting_periods entities results).applicable =
        !(results.filterMap (passageWaitingReq (procEntity entities))).isEmpty) ∧
      ((check_waiting_periods entities results).required_period =
        (results.filterMap (passageWaitingReq (procEntity entities))).getLast?) ∧
      ((check_waiting_periods entities results).current_period =
        (if (results.filterMap (passageWaitingReq (procEntity entities))).isEmpty then none
         else some pd.months)) ∧
      ((check_waiting_periods entities results).satisfied =
        (results.filterMap (passageWaitingReq (procEntity entities))).any
          (fun q => decide (pd.months ≥ q)))) := by
  constructor
  · intro h
    unfold check_waiting_periods
    rw [h]
  · intro pd h
    unfold check_waiting_periods
    rw [h]
    obtain ⟨ha, hr, hc, hs⟩ := waiting_fold (procEntity entities) pd.months results {}
    refine ⟨?_, ?_, ?_, ?_⟩
    · rw [ha]; rfl
    · rw [hr]
      cases hrest : (results.filterMap (passageWaitingReq (procEntity entities))) with
      | nil => simp
      | cons q' qs => simp
    · exact hc
    · rw [hs]; rfl

/-- Concrete entity map for the C5 counterexample: a truthy procedure
and a 3-month policy duration. -/
def waitEnt : Entities :=
  { procedure := some (str "surgery"),
    policy_duration := some { duration := 3, unit := "months", months := 3 } }

/-- First counterexample passage: a 2-month waiting-period clause. -/
def waitP1 : Passage :=
  { text := str "waiting period of 2 months", section_type := "general",
    filename := "doc1", similarity_score := 0.9 }

/-- Second counterexample passage: a 24-month waiting-period clause. -/
def waitP2 : Passage :=
  { text := str "waiting period of 24 months", section_type := "general",
    filename := "doc2", similarity_score := 0.8 }

/-- C5 counterexample: the scan does **not** stop at the first passage
producing a match — with a second matching passage appended, the
required period is overwritten from 2 to 24 months, while `satisfied`
keeps the value `true` it acquired at the first passage even though the
3-month duration does not cover the 24-month requirement. -/
theorem waiting_period_counterexample :
    (check_waiting_periods waitEnt [waitP1]).required_period = some 2 ∧
    (check_waiting_periods waitEnt [waitP1, waitP2]).required_period = some 24 ∧
    (check_waiting_periods waitEnt [waitP1, waitP2]).satisfied = true ∧
    ¬((3 : ℚ) ≥ 24) := by decide

/-- Witness for C5 (amended) at the counterexample input. -/
theorem waiting_period_amended_witness :
    (check_waiting_periods waitEnt [waitP1, waitP2]).required_period =
      ([waitP1, waitP2].filterMap (passageWaitingReq (procEntity waitEnt))).getLast? :=
  ((waiting_period_amended waitEnt [waitP1, waitP2]).2
    { duration := 3, unit := "months", months := 3 } rfl).2.1

/-! ## Claim: benefit amount calculation (C10) -/

/-- Fold over a flattened list = nested fold (shape of the pattern loop
over `re.findall` results). -/
theorem foldl_bind_eq {α β γ : Type} (l : List α) (f : α → List β) (g : γ → β → γ) :
    ∀ b : γ, (l.flatMap f).foldl g b = l.foldl (fun acc x => (f x).foldl g acc) b := by
  induction l with
  | nil => intro b; rfl
  | cons x xs ih => intro b; simp only [List.flatMap_cons, List.foldl_append, List.foldl_cons, ih]

/-- A fold that never changes the accumulator returns it. -/
theorem foldl_const {α γ : Type} (l : List α) (b : γ) :
    l.foldl (fun acc _ => acc) b = b := by
  induction l generalizing b with
  | nil => rfl
  | cons x xs ih => simp only [List.foldl_cons]; exact ih b

/-- All monetary amounts the engine's currency patterns find in a
passage text, in scan order (patterns in order, matches left to right). -/
def passageAmounts (text : Str) : List ℚ :=
  (eAmtPatterns.flatMap (fun pattern => refindall pattern (lowerStr text))).map parseAmount

/-- A passage contributes to the payout: its section type is one of
`benefit`/`limitation`/`financial` and its text contains the procedure
(or no procedure entity was given). -/
def benefitRelevant (procedure : Str) (result : Passage) : Bool :=
  decide (result.section_type ∈ ["benefit", "limitation", "financial"]) &&
    (decide (procedure = []) || isSubstr procedure (lowerStr result.text))

/-- The per-passage step equals: if the passage is scanned and its
context matches, fold the per-amount update over all matched amounts;
otherwise leave the state unchanged. -/
theorem benefitStep_eq (procedure : Str) (bc : BenefitCalc) (r : Passage) :
    benefitStep procedure bc r =
      if benefitRelevant procedure r then
        (passageAmounts r.text).foldl (benefitUpd procedure r) bc
      else bc := by
  unfold benefitStep
  by_cases hsec : r.section_type ∈ ["benefit", "limitation", "financial"]
  · rw [if_pos hsec]
    by_cases hctx : procedure = [] ∨ isSubstr procedure (lowerStr r.text) = true
    · have hrel : benefitRelevant procedure r = true := by
        unfold benefitRelevant
        rcases hctx with hc | hc <;> simp [hsec, hc]
      rw [hrel, if_pos rfl]
      have hfun : (fun (bc : BenefitCalc) (amount_str : Str) =>
            if procedure = [] ∨ isSubstr procedure (lowerStr r.text) = true then
              benefitUpd procedure r bc (parseAmount amount_str)
            else bc) =
          (fun bc amount_str => benefitUpd procedure r bc (parseAmount amount_str)) := by
        funext b s
        rw [if_pos hctx]
      rw [hfun]
      unfold passageAmounts
      rw [List.foldl_map, foldl_bind_eq]
    · have hrel : benefitRelevant procedure r = false := by
        unfold benefitRelevant
        push_neg at hctx
        simp [hctx.1, hctx.2]
      rw [hrel, if_neg (by simp)]
      have hfun : (fun (bc : BenefitCalc) (amount_str : Str) =>
            if procedure = [] ∨ isSubstr procedure (lowerStr r.text) = true then
              benefitUpd procedure r bc (parseAmount amount_str)
            else bc) =
          (fun (bc : BenefitCalc) (_ : Str) => bc) := by
        funext b s
        rw [if_neg hctx]
      rw [hfun]
      have hfun2 : (fun (bc : BenefitCalc) (pattern : RE) =>
            (refindall pattern (lowerStr r.text)).foldl (fun (bc : BenefitCalc) (_ : Str) => bc) bc) =
          (fun (bc : BenefitCalc) (_ : RE) => bc) := by
        funext b p
        exact foldl_const _ _
      rw [hfun2, foldl_const]
  · rw [if_neg hsec]
    have hrel : benefitRelevant procedure r = false := by
      unfold benefitRelevant
      simp [hsec]
    rw [hrel, if_neg (by simp)]

/-- Field characterization of folding the per-amount update over a list
of amounts. -/
theorem benefitUpd_fold (procedure : Str) (r : Passage) :
    ∀ (amts : List ℚ) (bc : BenefitCalc),
      ((amts.foldl (benefitUpd procedure r) bc).amount =
        amts.foldl (fun cur a => if a > cur then a else cur) bc.amount) ∧
      ((amts.foldl (benefitUpd procedure r) bc).sub_limits =
        bc.sub_limits ++ amts.map (subLimitOf procedure r)) := by
  intro amts
  induction amts with
  | nil => intro bc; simp
  | cons a as ih =>
      intro bc
      obtain ⟨iha, ihs⟩ := ih (benefitUpd procedure r bc a)
      refine ⟨?_, ?_⟩
      · rw [List.foldl_cons, iha]
        rfl
      · rw [List.foldl_cons, ihs]
        simp [benefitUpd]

/-- Characterization of the passage fold of `_calculate_benefit_amount`. -/
theorem benefit_fold (procedure : Str) :
    ∀ (results : List Passage) (bc : BenefitCalc),
      ((results.foldl (benefitStep procedure) bc).amount =
        ((results.filter (benefitRelevant procedure)).flatMap
          (fun r => passageAmounts r.text)).foldl
            (fun cur a => if a > cur then a else cur) bc.amount) ∧
      ((results.foldl (benefitStep procedure) bc).sub_limits =
        bc.sub_limits ++ (results.filter (benefitRelevant procedure)).flatMap
          (fun r => (passageAmounts r.text).map (subLimitOf procedure r))) := by
  intro results
  induction results with
  | nil => intro bc; simp
  | cons r rest ih =>
      intro bc
      rw [List.foldl_cons, benefitStep_eq]
      by_cases hrel : benefitRelevant procedure r
      · rw [if_pos hrel]
        obtain ⟨iha, ihs⟩ := ih ((passageAmounts r.text).foldl (benefitUpd procedure r) bc)
        obtain ⟨upa, ups⟩ := benefitUpd_fold procedure r (passageAmounts r.text) bc
        refine ⟨?_, ?_⟩
        · rw [iha, upa, List.filter_cons_of_pos hrel, List.flatMap_cons, List.foldl_append]
        · rw [ihs, ups, List.filter_cons_of_pos hrel, List.flatMap_cons]
          simp
      · rw [if_neg hrel, List.filter_cons_of_neg hrel]
        exact ih bc

/-- C10 (amended): the benefit calculation scans only
benefit/limitation/financial passages; its candidate payout is the
maximum (with floor 0) over all amounts matched in passages whose text
contains the procedure (or all matched amounts when no procedure entity
is given); and exactly the amounts from those procedure-matching
passages are recorded as sub-limit entries — amounts whose context does
not match the procedure are neither considered for the payout nor
recorded. -/
theorem benefit_amount_amended (entities : Entities) (results : List Passage) :
    ((calculate_benefit_amount entities results).amount =
      ((results.filter (benefitRelevant (procEntity entities))).flatMap
        (fun r => passageAmounts r.text)).foldl (fun cur a => max cur a) 0) ∧
    ((calculate_benefit_amount entities results).sub_limits =
      (results.filter (benefitRelevant (procEntity entities))).flatMap
        (fun r => (passageAmounts r.text).map (subLimitOf (procEntity entities) r))) ∧
    ((results.filter (benefitRelevant (procEntity entities))).flatMap
        (fun r => passageAmounts r.text) = [] →
      (calculate_benefit_amount entities results).amount = 0) := by
  have hmax : (fun (cur a : ℚ) => if a > cur then a else cur) =
      (fun (cur a : ℚ) => max cur a) := by
    funext cur a
    rcases le_or_lt a cur with hle | hlt
    · rw [if_neg (not_lt_of_le hle), max_eq_left hle]
    · rw [if_pos hlt, max_eq_right (le_of_lt hlt)]
  obtain ⟨ha, hs⟩ := benefit_fold (procEntity entities) results {}
  rw [hmax] at ha
  refine ⟨?_, ?_, ?_⟩
  · unfold calculate_benefit_amount
    exact ha
  · unfold calculate_benefit_amount
    rw [hs]
    rfl
  · intro hnil
    unfold calculate_benefit_amount
    rw [ha, hnil]
    rfl

/-- Concrete entity map for the C10 counterexample. -/
def benEnt : Entities := { procedure := some (str "knee surgery") }

/-- Concrete benefit passage for the C10 counterexample: a benefit
section stating an amount but never mentioning the procedure. -/
def benP : Passage :=
  { text := str "rs 5000", section_type := "benefit",
    filename := "doc", similarity_score := 0.9 }

/-- C10 counterexample: the `rs` currency pattern structurally matches
the amount `5000` in a scanned benefit passage, yet — because the
passage's text does not contain the procedure — the engine records **no**
sub-limit entry for it (the claim says every matched amount is recorded,
including those whose context does not match the procedure). -/
theorem benefit_sublimit_counterexample :
    refindall eAmtPat2 (lowerStr benP.text) = [str "5000"] ∧
    (calculate_benefit_amount benEnt [benP]).sub_limits = [] ∧
    (calculate_benefit_amount benEnt [benP]).amount = 0 := by decide

/-- Witness for C10 (amended) at the counterexample input. -/
theorem benefit_amount_amended_witness :
    (calculate_benefit_amount benEnt [benP]).amount =
      (([benP].filter (benefitRelevant (procEntity benEnt))).flatMap
        (fun r => passageAmounts r.text)).foldl (fun cur a => max cur a) 0 :=
  (benefit_amount_amended benEnt [benP]).1

/-! ## Claim: age extraction (C4) -/

/-- Regexes whose capture groups all wrap the two-digit class `digit12`
(true of all three age patterns). -/
inductive CapsBounded : RE → Prop
  /-- empty pattern -/
  | eps : CapsBounded .eps
  /-- character class -/
  | cls (p : Char → Bool) : CapsBounded (.cls p)
  /-- concatenation -/
  | seq {a b : RE} : CapsBounded a → CapsBounded b → CapsBounded (.seq a b)
  /-- alternation -/
  | alt {a b : RE} : CapsBounded a → CapsBounded b → CapsBounded (.alt a b)
  /-- option -/
  | opt {a : RE} : CapsBounded a → CapsBounded (.opt a)
  /-- star -/
  | star {a : RE} : CapsBounded a → CapsBounded (.star a)
  /-- the only allowed group shape: `(\d{1,2})` -/
  | group : CapsBounded (.group digit12)

/-- A capture value is bounded: at most two characters, all digits. -/
def capOK (cap : Option Str) : Prop :=
  ∀ pre, cap = some pre → pre.length ≤ 2 ∧ pre.all isDigitC

/-- The empty capture is bounded. -/
theorem capOK_none : capOK none := by
  intro pre h
  exact absurd h (by simp)

/-- A successful anchored run of `digit12` consumes one or two leading
digits and hands the rest (and untouched capture) to the continuation. -/
theorem mrun_digit12 {α : Type} :
    ∀ (f : Nat) (s : Str) (cap : Option Str) (k : Str → Option Str → Option α) (x : α),
      mrun f digit12 s cap k = some x →
      ∃ pre rest, s = pre ++ rest ∧ 1 ≤ pre.length ∧ pre.length ≤ 2 ∧
        pre.all isDigitC ∧ k rest cap = some x := by
  intro f s cap k x h
  rcases f with _ | f
  · simp [mrun] at h
  rcases f with _ | f
  · simp [digit12, mrun] at h
  rcases s with _ | ⟨c, rest1⟩
  · simp [digit12, mrun] at h
  simp only [digit12, mrun] at h
  by_cases hc : isDigitC c
  · rw [if_pos hc] at h
    cases hfst : mrun f (RE.cls isDigitC) rest1 cap k with
    | none =>
        rw [hfst] at h
        simp only [Option.none_orElse] at h
        exact ⟨[c], rest1, rfl, by simp, by simp, by simp [hc], h⟩
    | some v =>
        rw [hfst] at h
        simp only [Option.some_orElse, Option.some.injEq] at h
        subst h
        rcases f with _ | f
        · simp [mrun] at hfst
        rcases rest1 with _ | ⟨c2, rest2⟩
        · simp [mrun] at hfst
        simp only [mrun] at hfst
        by_cases hc2 : isDigitC c2
        · rw [if_pos hc2] at hfst
          exact ⟨[c, c2], rest2, rfl, by simp, by simp, by simp [hc, hc2], hfst⟩
        · rw [if_neg hc2] at hfst
          exact absurd hfst (by simp)
  · rw [if_neg hc] at h
    exact absurd h (by simp)

/-- Capture preservation: a successful run of a `CapsBounded` regex only
ever passes bounded captures to its continuation. -/
theorem mrun_capsBounded {α : Type} :
    ∀ (f : Nat) (r : RE) (s : Str) (cap : Option Str)
      (k : Str → Option Str → Option α) (x : α),
      CapsBounded r → capOK cap → mrun f r s cap k = some x →
      ∃ s' cap', capOK cap' ∧ k s' cap' = some x := by
  intro f
  induction f with
  | zero => intro r s cap k x _ _ h; simp [mrun] at h
  | succ f ih =>
      intro r s cap k x hr hcap h
      cases hr with
      | eps => exact ⟨s, cap, hcap, h⟩
      | cls p =>
          rcases s with _ | ⟨c, rest⟩
          · simp [mrun] at h
          simp only [mrun] at h
          by_cases hc : p c
          · rw [if_pos hc] at h
            exact ⟨rest, cap, hcap, h⟩
          · rw [if_neg hc] at h
            exact absurd h (by simp)
      | seq ha hb =>
          simp only [mrun] at h
          obtain ⟨s1, c1, hc1, h1⟩ := ih _ _ _ _ _ ha hcap h
          exact ih _ _ _ _ _ hb hc1 h1
      | alt ha hb =>
          simp only [mrun] at h
          cases hfst : mrun f _ s cap k with
          | none =>
              rw [hfst] at h
              simp only [Option.none_orElse] at h
              exact ih _ _ _ _ _ hb hcap h
          | some v =>
              rw [hfst] at h
              simp only [Option.some_orElse, Option.some.injEq] at h
              subst h
              exact ih _ _ _ _ _ ha hcap hfst
      | opt ha =>
          simp only [mrun] at h
          cases hfst : mrun f _ s cap k with
          | none =>
              rw [hfst] at h
              simp only [Option.none_orElse] at h
              exact ⟨s, cap, hcap, h⟩
          | some v =>
              rw [hfst] at h
              simp only [Option.some_orElse, Option.some.injEq] at h
              subst h
              exact ih _ _ _ _ _ ha hcap hfst
      | star ha =>
          simp only [mrun] at h
          cases hfst : mrun f _ s cap
              (fun s' cap' =>
                if s'.length < s.length then mrun f (.star _) s' cap' k else none) with
          | none =>
              rw [hfst] at h
              simp only [Option.none_orElse] at h
              exact ⟨s, cap, hcap, h⟩
          | some v =>
              rw [hfst] at h
              simp only [Option.some_orElse, Option.some.injEq] at h
              subst h
              obtain ⟨s1, c1, hc1, h1⟩ := ih _ _ _ _ _ ha hcap hfst
              by_cases hlen : s1.length < s.length
              · rw [if_pos hlen] at h1
                exact ih _ _ _ _ _ (CapsBounded.star ha) hc1 h1
              · rw [if_neg hlen] at h1
                exact absurd h1 (by simp)
      | group =>
          simp only [mrun] at h
          obtain ⟨pre, rest, hsplit, h1, h2, hd, hk⟩ := mrun_digit12 f s cap _ x h
          refine ⟨rest, some (s.take (s.length - rest.length)), ?_, hk⟩
          intro p hp
          have hlen : s.length - rest.length = pre.length := by
            rw [hsplit]
            simp
          have htake : s.take (s.length - rest.length) = pre := by
            rw [hlen, hsplit, List.take_left]
          rw [htake] at hp
          cases hp
          exact ⟨h2, hd⟩

/-- A successful anchored match of a `CapsBounded` regex yields a
bounded group-1 capture. -/
theorem manchored_capsBounded {r : RE} {s : Str} {pr : Option Str × Str}
    (hr : CapsBounded r) (h : manchored r s = some pr) : capOK pr.1 := by
  unfold manchored at h
  obtain ⟨s', cap', hc', hk⟩ := mrun_capsBounded _ _ _ _ _ _ hr capOK_none h
  simp only [Option.some.injEq] at hk
  rw [← hk]
  exact hc'

/-- A successful search with a `CapsBounded` regex yields a bounded
group-1 capture. -/
theorem research_capsBounded {r : RE} (hr : CapsBounded r) :
    ∀ (q : Str) (capOpt : Option Str), research r q = some capOpt → capOK capOpt := by
  intro q
  induction q with
  | nil =>
      intro capOpt h
      simp only [research] at h
      cases hm : manchored r [] with
      | none => rw [hm] at h; exact absurd h (by simp)
      | some pr =>
          rw [hm] at h
          simp only [Option.map_some', Option.some.injEq] at h
          rw [← h]
          exact manchored_capsBounded hr hm
  | cons c t ih =>
      intro capOpt h
      simp only [research] at h
      cases hm : manchored r (c :: t) with
      | none =>
          rw [hm] at h
          simp only [Option.map_none', Option.none_orElse] at h
          exact ih capOpt h
      | some pr =>
          rw [hm] at h
          simp only [Option.map_some', Option.some_orElse, Option.some.injEq] at h
          rw [← h]
          exact manchored_capsBounded hr hm

/-- Case-insensitive literal characters are group-free. -/
theorem capsBounded_chari (c : Char) : CapsBounded (chari c) := by
  unfold chari
  exact .cls _

/-- Case-insensitive literal words are group-free. -/
theorem capsBounded_litW (w : String) : CapsBounded (litW w) := by
  unfold litW
  induction w.data with
  | nil => exact .eps
  | cons c cs ih => exact .seq (capsBounded_chari c) ih

/-- `\s*` is group-free. -/
theorem capsBounded_wsStar : CapsBounded wsStar := by
  unfold wsStar starC
  exact .star (.cls _)

/-- The first age pattern only captures `(\d{1,2})`. -/
theorem capsBounded_agePat1 : CapsBounded agePat1 := by
  unfold agePat1
  exact .seq .group (.seq capsBounded_wsStar
    (.seq (.alt (capsBounded_litW _)
        (.alt (capsBounded_litW _)
          (.alt (.seq (capsBounded_chari _) (.seq (capsBounded_chari _)
              (.seq (capsBounded_chari _) (.opt (capsBounded_chari _)))))
            (.seq (capsBounded_litW _) (.opt (capsBounded_chari _))))))
      (.seq capsBounded_wsStar (capsBounded_litW _))))

/-- The second age pattern only captures `(\d{1,2})`. -/
theorem capsBounded_agePat2 : CapsBounded agePat2 := by
  unfold agePat2
  exact .seq (capsBounded_litW _) (.seq capsBounded_wsStar
    (.seq (.opt (.seq (capsBounded_litW _) capsBounded_wsStar)) .group))

/-- The third age pattern only captures `(\d{1,2})`. -/
theorem capsBounded_agePat3 : CapsBounded agePat3 := by
  unfold agePat3
  exact .seq .group (.seq capsBounded_wsStar
    (.alt (capsBounded_litW _) (.alt (capsBounded_litW _)
      (.alt (capsBounded_chari _) (capsBounded_chari _)))))

/-- All age patterns are `CapsBounded`. -/
theorem capsBounded_agePatterns : ∀ p ∈ agePatterns, CapsBounded p := by
  intro p hp
  simp only [agePatterns, List.mem_cons, List.mem_singleton, List.not_mem_nil,
    or_false] at hp
  rcases hp with rfl | rfl | rfl
  exacts [capsBounded_agePat1, capsBounded_agePat2, capsBounded_agePat3]

/-- A digit character's value is at most 9. -/
theorem digitVal_le9 {c : Char} (h : isDigitC c = true) : digitVal c ≤ 9 := by
  unfold isDigitC at h
  unfold digitVal
  simp only [Bool.and_eq_true, decide_eq_true_eq] at h
  rw [show '0'.toNat = 48 from rfl]
  omega

/-- The numeric value of a bounded digit capture is at most 99. -/
theorem digitsToNat_le99 (l : Str) (h2 : l.length ≤ 2) (hd : l.all isDigitC) :
    digitsToNat l ≤ 99 := by
  match l with
  | [] => simp [digitsToNat]
  | [a] =>
      simp only [List.all_cons, List.all_nil, Bool.and_true] at hd
      have := digitVal_le9 hd
      simp only [digitsToNat, List.foldl]
      omega
  | [a, b] =>
      simp only [List.all_cons, List.all_nil, Bool.and_true, Bool.and_eq_true] at hd
      have ha := digitVal_le9 hd.1
      have hb := digitVal_le9 hd.2
      simp only [digitsToNat, List.foldl]
      omega
  | a :: b :: c :: rest => simp at h2

/-- An age value produced by any structural match of the age patterns:
the capture participates in the loop as `int(match.group(1))` with a
default of the empty capture. -/
theorem extract_age_go_le99 (query : Str) :
    ∀ (l : List RE), (∀ p ∈ l, CapsBounded p) →
      ∀ a, extract_age.go query l = some a → a ≤ 99 := by
  intro l
  induction l with
  | nil => intro _ a h; simp [extract_age.go] at h
  | cons p rest ih =>
      intro hcb a h
      have hcbp : CapsBounded p := hcb p (by simp)
      have hcbrest : ∀ p' ∈ rest, CapsBounded p' := fun p' hp' => hcb p' (by simp [hp'])
      cases hres : research p query with
      | none =>
          rw [extract_age.go, hres] at h
          exact ih hcbrest a h
      | some capOpt =>
          rw [extract_age.go, hres] at h
          dsimp only at h
          have hbound : digitsToNat (capOpt.getD []) ≤ 99 := by
            cases capOpt with
            | none => simp [digitsToNat]
            | some cap =>
                obtain ⟨h2, hd⟩ := research_capsBounded hcbp query (some cap) hres cap rfl
                exact digitsToNat_le99 cap h2 hd
          by_cases hle : digitsToNat (capOpt.getD []) ≤ 120
          · rw [if_pos hle] at h
            cases h
            exact hbound
          · rw [if_neg hle] at h
            exact ih hcbrest a h

/-- Any age value the extractor returns is at most 99: every age
pattern captures at most two digits. -/
theorem extract_age_le99 (query : Str) (a : ℕ) (h : extract_age query = some a) :
    a ≤ 99 :=
  extract_age_go_le99 query agePatterns capsBounded_agePatterns a h

/-- Spec-side age extractor, following the claim's words: the scan for
the age kind stops at the first structural match — an out-of-range
capture is discarded without retrying later patterns. (Modelled from
the claim for the refinement comparison with `extract_age`.) -/
def extract_age_first (query : Str) : Option Nat :=
  go agePatterns
where
  /-- First-structural-match-wins pattern scan. -/
  go : List RE → Option Nat
  | [] => none
  | p :: rest =>
      match research p query with
      | some cap =>
          let age := digitsToNat (cap.getD [])
          if age ≤ 120 then some age else none
      | none => go rest

/-- On the actual age patterns, the code's scan (which would retry later
patterns after an out-of-range match) agrees with the spec's
stop-at-first-structural-match scan, because every capture is at most
two digits and hence always in range. -/
theorem extract_age_go_eq_first (query : Str) :
    ∀ (l : List RE), (∀ p ∈ l, CapsBounded p) →
      extract_age.go query l = extract_age_first.go query l := by
  intro l
  induction l with
  | nil => simp [extract_age.go, extract_age_first.go]
  | cons p rest ih =>
      intro hcb
      have hcbp : CapsBounded p := hcb p (by simp)
      have hcbrest : ∀ p' ∈ rest, CapsBounded p' := fun p' hp' => hcb p' (by simp [hp'])
      cases hres : research p query with
      | none =>
          rw [extract_age.go, extract_age_first.go, hres]
          exact ih hcbrest
      | some capOpt =>
          rw [extract_age.go, extract_age_first.go, hres]
          dsimp only
          have hbound : digitsToNat (capOpt.getD []) ≤ 99 := by
            cases capOpt with
            | none => simp [digitsToNat]
            | some cap =>
                obtain ⟨h2, hd⟩ := research_capsBounded hcbp query (some cap) hres cap rfl
                exact digitsToNat_le99 cap h2 hd
          have h120 : digitsToNat (capOpt.getD []) ≤ 120 := le_trans hbound (by omega)
          rw [if_pos h120, if_pos h120]

/-- The code's age scan equals the spec's first-structural-match scan. -/
theorem extract_age_eq_first (query : Str) :
    extract_age query = extract_age_first query :=
  extract_age_go_eq_first query agePatterns capsBounded_agePatterns

/-- An age entity present in a parsed query lies in `[1, 99]`: the
truthiness guard `if age:` drops 0 and every pattern captures at most
two digits. -/
theorem parse_query_age_range (q : Str) (a : ℕ)
    (h : (parse_query q).entities.age = some a) : 1 ≤ a ∧ a ≤ 99 := by
  have h' : truthyNat (extract_age (normalize_query q)) = some a := by
    simpa [parse_query, extract_entities] using h
  cases hx : extract_age (normalize_query q) with
  | none => rw [hx] at h'; simp [truthyNat] at h'
  | some b =>
      rw [hx] at h'
      by_cases hb : b = 0
      · simp [truthyNat, hb] at h'
      · simp only [truthyNat, ne_eq, hb, not_false_eq_true, if_true,
          Option.some.injEq] at h'
        subst h'
        exact ⟨by omega, extract_age_le99 _ b hx⟩

set_option maxHeartbeats 4000000 in
/-- C4 (amended): for every integer `n` in `[1, 99]`, parsing a query
that states the age in a supported whitespace-separated form
(`"n years old"`, `"age n"`, `"n male"`) round-trips to
`entities.age = n`; the extracted age entity, when present, always lies
in `[1, 99] ⊆ [0, 120]` (ages 0 and 100–120 cannot round-trip: the
truthiness guard drops 0 and every age pattern captures at most two
digits, as the counterexample shows); any value returned by the raw
extractor is within the accepted range `[0, 120]` — indeed at most 99 —
so the out-of-range discard is dead code and the scan for the age kind
effectively stops at the first structural match, which the refinement
against the spec-side `extract_age_first` makes precise. (Had the
discard ever fired, the code would in fact retry later patterns; with
the given patterns the two scans agree on every input.) -/
theorem age_extraction_amended :
    (∀ n : ℕ, n < 100 → 1 ≤ n →
      (parse_query (str (toString n) ++ str " years old")).entities.age = some n ∧
      (parse_query (str "age " ++ str (toString n))).entities.age = some n ∧
      (parse_query (str (toString n) ++ str " male")).entities.age = some n) ∧
    (∀ (q : Str) (a : ℕ), (parse_query q).entities.age = some a → 1 ≤ a ∧ a ≤ 99) ∧
    (∀ (q : Str) (a : ℕ), extract_age q = some a → a ≤ 120 ∧ a ≤ 99) ∧
    (∀ q : Str, extract_age q = extract_age_first q) := by
  refine ⟨?_, parse_query_age_range,
    fun q a h => ⟨le_trans (extract_age_le99 q a h) (by omega), extract_age_le99 q a h⟩,
    extract_age_eq_first⟩
  decide

/-- C4 counterexample: `"age 100"` states an age inside the claimed
round-trip range `[0, 120]` in a supported form, but the two-digit
capture `\d{1,2}` truncates it — the parser reports age 10, not 100. -/
theorem age_roundtrip_counterexample :
    (parse_query (str "age 100")).entities.age = some 10 ∧ (10 : ℕ) ≠ 100 := by
  decide

/-- Witness for C4 (amended) at `n = 46`. -/
theorem age_extraction_amended_witness :
    (parse_query (str (toString 46) ++ str " years old")).entities.age = some 46 :=
  (age_extraction_amended.1 46 (by decide) (by decide)).1
